import Mathlib

/-!
Daily push-ups tracker (`script.js`): embedding and verified properties

The embedding follows `src/script.js` function by function.

Modelling conventions
* The numbers of a record are integers (`Int`).  Sums and products of them are rounded to the
  nearest double (`roundNum`), which changes nothing up to 2^53 and gives an infinity from
  2^1024 - 2^970 on, and a number is printed as `Number::toString` prints the double
  (`numberToString`): all digits up to 2^53, the shortest digits that give the double back
  beyond, the exponent form from 1e21 on.  The numbers read from text (`Number(s)`, the numeric
  inputs) are rationals `ℚ`; `NaN` and the infinities are `none` where they can occur.
* A `Date` is its time value, the milliseconds since the epoch in UTC; an Invalid Date is
  `none`.  The calendar arithmetic is the one of ECMAScript (`DayFromYear`, `YearFromTime`,
  `MonthFromTime`, `MakeDay`, `MakeDate`, `UTC`, `LocalTime`, `TimeClip`).  The local time zone
  is a parameter (`TimeZone`).
* A string longer than the engine allows cannot be built: `repeat` and `join` raise a
  RangeError, which is `none`.  The longest length is a parameter (`limit`).
* An exception ends the function and the handler that run; what they did before stays done.
  On typed records only `dayToLine` can raise.  On values of arbitrary shape the render
  functions can raise in more places; there the exceptions and their messages are a parameter
  (`Page`).
* Objects are association lists in insertion order, which is the order of `Object.entries` for
  keys that are no array indices, as date keys are; a property that is not there reads
  `undefined`, which is `none` / `Field.absent`.
* A day record is typed (section "Data model" of the source): each of its four fields is absent,
  `null`, or a value of the documented type; any other field is carried in `extra`.
  Values of arbitrary JSON shape (`JVal`) occur where the code handles them as such:
  in `loadData` and in the import handler.
* The script has no `"use strict"` directive and no module syntax; it is taken as a classic
  script, where an assignment to a property of a primitive value is silently ignored.
* `localStorage` holds `JSON.stringify(data)`; it is modelled as the value that was serialised
  (a snapshot, not shared with `data`), and `setItem` is taken to store it (no quota).
  `JSON.parse` is a parameter of `loadData` and of the handler of the file import.
-/

namespace Pushups

/-! ## JavaScript values and objects -/

/-- JSON values as `JSON.parse` produces them.  An array carries the named properties that were
assigned to it afterwards (none after parsing). -/
inductive JVal where
  | null
  | bool (b : Bool)
  | num (q : ℚ)
  | str (s : String)
  | arr (items : List JVal) (props : List (String × JVal))
  | obj (fields : List (String × JVal))

/-- Truthiness of a value (`!v` is its negation). -/
def JVal.truthy : JVal → Bool
  | .null => false
  | .bool b => b
  | .num q => decide (q ≠ 0)
  | .str s => decide (s ≠ "")
  | .arr _ _ => true
  | .obj _ => true

/-- Truthiness of the result of a property read, where `none` is `undefined`. -/
def truthyOpt : Option JVal → Bool
  | none => false
  | some v => v.truthy

/-- Result of `typeof v === "object"`: true for `null`, arrays and objects. -/
def JVal.typeofObject : JVal → Bool
  | .null => true
  | .arr _ _ => true
  | .obj _ => true
  | _ => false

/-- Property read `o[k]` on an object; `none` is `undefined`. -/
def getProp {α : Type} : List (String × α) → String → Option α
  | [], _ => none
  | (k', v) :: rest, k => if k' = k then some v else getProp rest k

/-- Property write `o[k] = v`: an existing key keeps its place, a new key is added last. -/
def setProp {α : Type} : List (String × α) → String → α → List (String × α)
  | [], k, v => [(k, v)]
  | (k', v') :: rest, k, v =>
    if k' = k then (k, v) :: rest else (k', v') :: setProp rest k v

/-- Property removal `delete o[k]`; nothing happens when the key is not there. -/
def deleteProp {α : Type} (o : List (String × α)) (k : String) : List (String × α) :=
  o.filter fun e => decide (e.1 ≠ k)

/-- Array join `parts.join(sep)`. -/
def join (sep : String) : List String → String
  | [] => ""
  | [a] => a
  | a :: b :: rest => a ++ sep ++ join sep (b :: rest)

/-- String repetition `s.repeat(n)` for a count that is a natural number. -/
def repeatStr (s : String) : Nat → String
  | 0 => ""
  | n + 1 => s ++ repeatStr s n

/-! ## Data model -/

/-- State of one documented field of a record: not there (`undefined` when read), `null`,
or a value. -/
inductive Field (α : Type) where
  | absent
  | null
  | val (a : α)
  deriving DecidableEq, Repr

/-- Truthiness of a boolean field, as in `if(day.off)`. -/
def Field.truthy : Field Bool → Bool
  | .val b => b
  | _ => false

/-- Expression `f || d` for a field whose falsy values all equal the default `d`
(`0` for numbers, `[]` never falsy, `""` for strings). -/
def Field.orElse {α : Type} (f : Field α) (d : α) : α :=
  match f with
  | .val a => a
  | _ => d

/-- Assignment `f ??= d`: only `undefined` and `null` are replaced. -/
def Field.nullishAssign {α : Type} (f : Field α) (d : α) : Field α :=
  match f with
  | .val a => .val a
  | _ => .val d

/-- One hang: `{ sec, feet }`. -/
structure Hang where
  sec : Int
  feet : Bool
  deriving DecidableEq, Repr

/-- Day record `{ off, pushSets, hangs, notes }` plus whatever other fields it has. -/
structure Day where
  off : Field Bool
  pushSets : Field Int
  hangs : Field (List Hang)
  notes : Field String
  extra : List (String × JVal)

/-- Store `{ days: {...} }` plus whatever other top-level fields it has. -/
structure Store where
  days : List (String × Day)
  extra : List (String × JVal)

/-- Literal `{ off:false, pushSets:0, hangs:[], notes:"" }` of `ensureDay`. -/
def defaultDay : Day :=
  { off := .val false, pushSets := .val 0, hangs := .val [], notes := .val "", extra := [] }

/-! ## Numbers from strings: `Number(s)` -/

/-- White space and line terminators that `Number` strips (StrWhiteSpaceChar). -/
def isStrWhiteSpace (c : Char) : Bool :=
  let n := c.toNat
  n = 9 || n = 10 || n = 11 || n = 12 || n = 13 || n = 32 || n = 160 || n = 5760 ||
    (8192 ≤ n && n ≤ 8202) || n = 8232 || n = 8233 || n = 8239 || n = 8287 ||
    n = 12288 || n = 65279

def trimWhiteSpace (cs : List Char) : List Char :=
  ((cs.dropWhile isStrWhiteSpace).reverse.dropWhile isStrWhiteSpace).reverse

/-- Value of a digit or letter as a digit (`a` = 10, ...). -/
def digitValue (c : Char) : Option Nat :=
  let n := c.toNat
  if 48 ≤ n ∧ n ≤ 57 then some (n - 48)
  else if 97 ≤ n ∧ n ≤ 122 then some (n - 87)
  else if 65 ≤ n ∧ n ≤ 90 then some (n - 55)
  else none

/-- Reads a whole list of digits in the given base; `none` when a character is not one. -/
def readDigits (base : Nat) (acc : Nat) : List Char → Option Nat
  | [] => some acc
  | c :: cs =>
    match digitValue c with
    | some d => if d < base then readDigits base (acc * base + d) cs else none
    | none => none

def isDecimalDigit (c : Char) : Bool := 48 ≤ c.toNat && c.toNat ≤ 57

/-- Exponent part `e±digits` (or nothing) at the end of a decimal literal. -/
def readExponent (cs : List Char) : Option Int :=
  match cs with
  | [] => some 0
  | e :: rest =>
    if e.toNat = 101 ∨ e.toNat = 69 then
      match rest with
      | [] => none
      | s :: ds =>
        if s.toNat = 43 then
          if ds = [] then none else (readDigits 10 0 ds).map fun n => (n : Int)
        else if s.toNat = 45 then
          if ds = [] then none else (readDigits 10 0 ds).map fun n => -(n : Int)
        else (readDigits 10 0 rest).map fun n => (n : Int)
    else none

/-- The number `n * 10 ^ k`. -/
def scale10 (n : Nat) (k : Int) : ℚ :=
  if 0 ≤ k then ((n * 10 ^ k.toNat : Nat) : ℚ) else mkRat n (10 ^ (-k).toNat)

/-- StrUnsignedDecimalLiteral: `digits[.digits][exponent]` or `.digits[exponent]`.
The literal `Infinity` is not a finite number and gives `none` like a malformed literal. -/
def unsignedDecimal (cs : List Char) : Option ℚ :=
  let ip := cs.takeWhile isDecimalDigit
  let r1 := cs.dropWhile isDecimalDigit
  let fr : List Char × List Char :=
    match r1 with
    | [] => ([], [])
    | c :: t =>
      if c.toNat = 46 then (t.takeWhile isDecimalDigit, t.dropWhile isDecimalDigit)
      else ([], r1)
  if ip = [] ∧ fr.1 = [] then none
  else
    match readDigits 10 0 (ip ++ fr.1), readExponent fr.2 with
    | some n, some e => some (scale10 n (e - fr.1.length))
    | _, _ => none

/-- Conversion `Number(s)` of a string: `none` when the result is `NaN` or infinite.  White space
around is dropped, the empty string is `0`, then a signed decimal literal or an unsigned
`0x` / `0o` / `0b` literal. -/
def strToNumber (s : List Char) : Option ℚ :=
  match trimWhiteSpace s with
  | [] => some 0
  | c :: t =>
    if c.toNat = 43 then unsignedDecimal t
    else if c.toNat = 45 then (unsignedDecimal t).map fun q => -q
    else
      match t with
      | p :: ds =>
        if c.toNat = 48 ∧ (p.toNat = 120 ∨ p.toNat = 88) then
          if ds = [] then none else (readDigits 16 0 ds).map fun n => (n : ℚ)
        else if c.toNat = 48 ∧ (p.toNat = 111 ∨ p.toNat = 79) then
          if ds = [] then none else (readDigits 8 0 ds).map fun n => (n : ℚ)
        else if c.toNat = 48 ∧ (p.toNat = 98 ∨ p.toNat = 66) then
          if ds = [] then none else (readDigits 2 0 ds).map fun n => (n : ℚ)
        else unsignedDecimal (c :: t)
      | [] => unsignedDecimal (c :: t)

/-! ## Numbers that hold integers: rounding and printing -/

/-- Search of `ulp`: the first of `u`, `2u`, `4u`, ... that has `v < u * 2^53`. -/
def ulpFrom (v : Nat) : Nat → Nat → Nat
  | 0, u => u
  | fuel + 1, u => if v < u * 2 ^ 53 then u else ulpFrom v fuel (2 * u)

/-- Distance between the doubles next to `v`: the least power of two `u` with `v < u * 2^53`
(at most 2^971, the distance of the largest doubles). -/
def ulp (v : Nat) : Nat := ulpFrom v 971 1

/-- Nearest double of a natural number: the nearest multiple of `ulp v`, a tie going to the
even one.  Up to 2^53 every natural number is a double. -/
def roundDouble (v : Nat) : Nat :=
  let u := ulp v
  let q := v / u
  let r := v % u
  if 2 * r < u then q * u
  else if u < 2 * r then (q + 1) * u
  else if q % 2 = 0 then q * u
  else (q + 1) * u

/-- Nearest double of an integer, as long as it is finite. -/
def roundDoubleInt (x : Int) : Int :=
  if x < 0 then -((roundDouble x.natAbs : Nat) : Int) else ((roundDouble x.natAbs : Nat) : Int)

/-- A number that holds an integer, or an infinity: the values that the sums and products of
the counters can take. -/
inductive Num where
  | fin (x : Int)
  | posInf
  | negInf
  deriving DecidableEq, Repr

instance (n : Nat) : OfNat Num n := ⟨.fin n⟩

/-- Whether the natural number `w` is below 2^1024, the first power of two that is no finite
double: `ulp w`, which is at most 2^971, has `w < ulp w * 2^53`. -/
def belowInfinity (w : Nat) : Bool := decide (w < ulp w * 2 ^ 53)

/-- The double of an integer: the nearest one, which is an infinity when it would be 2^1024 or
more in absolute value. -/
def roundNum (x : Int) : Num :=
  if belowInfinity (roundDouble x.natAbs) then .fin (roundDoubleInt x)
  else if x < 0 then .negInf
  else .posInf

/-- Sum `a + b` where `b` is a number of a record. -/
def jsAdd (a : Num) (b : Int) : Num :=
  match a with
  | .fin x => roundNum (x + b)
  | .posInf => .posInf
  | .negInf => .negInf

/-- Product `a * 10`. -/
def jsTimes10 (a : Num) : Num :=
  match a with
  | .fin x => roundNum (x * 10)
  | .posInf => .posInf
  | .negInf => .negInf

/-- The multiple of `p` next to the double `x` that gives `x` back when read as a double: the
one below, the one above, the nearer of the two, or none. -/
def decimalCandidate (x p : Nat) : Option Nat :=
  let lo := x / p * p
  let hi := lo + p
  if roundDouble lo = x then
    if roundDouble hi = x then
      (if x - lo < hi - x then some lo
       else if hi - x < x - lo then some hi
       else if (x / p) % 2 = 0 then some lo else some hi)
    else some lo
  else if roundDouble hi = x then some hi
  else none

/-- Search of `shortestDecimal`: tries `k` significant digits, then `k + 1`, and so on. -/
def shortestDecimalFrom (x n : Nat) : Nat → Nat → Nat
  | 0, _ => x
  | fuel + 1, k =>
    match decimalCandidate x (10 ^ (n - k)) with
    | some v => v
    | none => shortestDecimalFrom x n fuel (k + 1)

/-- The number with the fewest significant digits that reads back as the double `x`
(17 digits always do). -/
def shortestDecimal (x : Nat) : Nat :=
  shortestDecimalFrom x (toString x).length 17 1

/-- Digits without the zeros at the end. -/
def stripZeros (ds : List Char) : List Char :=
  (ds.reverse.dropWhile fun c => c.toNat = 48).reverse

/-- Notation of `Number::toString` for the integer `v`: its digits when there are at most 21,
otherwise the significant digits, a point after the first one, and the exponent. -/
def formatDecimal (v : Nat) : String :=
  let ds := (toString v).data
  if ds.length ≤ 21 then String.mk ds
  else
    match stripZeros ds with
    | [] => String.mk ds
    | [d] => String.mk [d] ++ "e+" ++ toString (ds.length - 1)
    | d :: rest => String.mk (d :: '.' :: rest) ++ "e+" ++ toString (ds.length - 1)

/-- Text of a double that is a natural number: up to 2^53 it prints its digits. -/
def natToString (v : Nat) : String :=
  if v ≤ 2 ^ 53 then toString v else formatDecimal (shortestDecimal v)

/-- Text of a number, as a template literal prints it (`Number::toString`). -/
def Num.toText (a : Num) : String :=
  match a with
  | .fin x => if x < 0 then "-" ++ natToString x.natAbs else natToString x.natAbs
  | .posInf => "Infinity"
  | .negInf => "-Infinity"

/-- Text of a number of a record, as a template literal prints it. -/
def numberToString (x : Int) : String := (roundNum x).toText

/-! ## Dates: `new Date(y, m, d)`, `getFullYear`, `getMonth` -/

/-- Day number of 1 January of year `y`, counted from 1 January 1970 (DayFromYear). -/
def dayFromYear (y : Int) : Int :=
  365 * (y - 1970) + (y - 1969) / 4 - (y - 1901) / 100 + (y - 1601) / 400

def daysInYear (y : Int) : Int :=
  if y % 4 ≠ 0 then 365
  else if y % 100 ≠ 0 then 366
  else if y % 400 ≠ 0 then 365
  else 366

def inLeapYear (y : Int) : Int := if daysInYear y = 366 then 1 else 0

/-- Year of a day number (YearFromTime): the largest `y` with `dayFromYear y ≤ n`, found from
the estimate `n / 365.2425` (see `yearFromDay_spec`). -/
def yearFromDay (n : Int) : Int :=
  let y := 1970 + (400 * n) / 146097
  if dayFromYear (y + 1) ≤ n then y + 1
  else if dayFromYear y ≤ n then y
  else y - 1

/-- Day within the year on which month `mn` (0 = January) starts. -/
def daysBeforeMonth (y : Int) (mn : Int) : Int :=
  let l := inLeapYear y
  if mn = 0 then 0
  else if mn = 1 then 31
  else if mn = 2 then 59 + l
  else if mn = 3 then 90 + l
  else if mn = 4 then 120 + l
  else if mn = 5 then 151 + l
  else if mn = 6 then 181 + l
  else if mn = 7 then 212 + l
  else if mn = 8 then 243 + l
  else if mn = 9 then 273 + l
  else if mn = 10 then 304 + l
  else 334 + l

/-- Month of a day number, 0 = January (MonthFromTime). -/
def monthFromDay (n : Int) : Int :=
  let y := yearFromDay n
  let d := n - dayFromYear y
  let l := inLeapYear y
  if d < 31 then 0
  else if d < 59 + l then 1
  else if d < 90 + l then 2
  else if d < 120 + l then 3
  else if d < 151 + l then 4
  else if d < 181 + l then 5
  else if d < 212 + l then 6
  else if d < 243 + l then 7
  else if d < 273 + l then 8
  else if d < 304 + l then 9
  else if d < 334 + l then 10
  else 11

/-- A `Date` object: `none` is an Invalid Date, `some t` the time value, in milliseconds since
the epoch in UTC. -/
abbrev JSDate := Option Int

/-- Milliseconds in a day. -/
def msPerDay : Int := 86400000

/-- The local time zone of the page: `localOf` is LocalTime (the local time value of a UTC
time value), `utcOf` is UTC (the UTC time value of a local time value; a local time that the
zone skips has one too). -/
structure TimeZone where
  localOf : Int → Int
  utcOf : Int → Int

/-- The zone of UTC itself. -/
def utcZone : TimeZone := { localOf := fun t => t, utcOf := fun t => t }

/-- Rounding towards zero (ToIntegerOrInfinity on a finite number). -/
def truncQ (q : ℚ) : Int :=
  if q.num < 0 then -((-q.num) / (q.den : Int)) else q.num / (q.den : Int)

/-- Year argument of the `Date` constructor: a year that truncates into 0..99 means 1900 + that. -/
def makeFullYear (y : ℚ) : ℚ :=
  let t := truncQ y
  if 0 ≤ t ∧ t ≤ 99 then ((1900 + t : Int) : ℚ) else y

/-- Day number of the integers year, month (0 = January) and day of month: months and days
out of range carry over (the arithmetic of MakeDay). -/
def civilDay (y m dt : Int) : Int :=
  let ym := y + m / 12
  let mn := m % 12
  dayFromYear ym + daysBeforeMonth ym mn + dt - 1

/-- Abstract operation MakeDay on finite numbers: each argument is rounded towards zero. -/
def makeDay (year month date : ℚ) : Int :=
  civilDay (truncQ year) (truncQ month) (truncQ date)

/-- Range of valid time values: 8.64e15 milliseconds either side of the epoch (TimeClip). -/
def timeClip (t : Int) : JSDate :=
  if -8640000000000000 ≤ t ∧ t ≤ 8640000000000000 then some t else none

/-- Constructor `new Date(y, m, d)` on three numbers, `none` being `NaN` or infinite: the local
midnight of the day (MakeDate of MakeDay and a time of zero), taken to UTC and clipped. -/
def newDate (tz : TimeZone) (y m d : Option ℚ) : JSDate :=
  match y, m, d with
  | some y, some m, some d => timeClip (tz.utcOf (makeDay (makeFullYear y) m d * msPerDay))
  | _, _, _ => none

/-- Local day number of a time value (Day of LocalTime). -/
def localDay (tz : TimeZone) (t : Int) : Int := tz.localOf t / msPerDay

/-- Getter `d.getFullYear()`; `none` is `NaN`. -/
def getFullYear (tz : TimeZone) (d : JSDate) : Option Int :=
  d.map fun t => yearFromDay (localDay tz t)

/-- Getter `d.getMonth()`, 0 = January; `none` is `NaN`. -/
def getMonth (tz : TimeZone) (d : JSDate) : Option Int :=
  d.map fun t => monthFromDay (localDay tz t)

/-- Comparison `a === b` of two numbers: `NaN` equals nothing. -/
def numStrictEq (a b : Option Int) : Bool :=
  match a, b with
  | some x, some y => decide (x = y)
  | _, _ => false

/-- Split `s.split("-")`: the parts between the dashes, at least one (the recursive call never
returns the empty list). -/
def splitDash : List Char → List (List Char)
  | [] => [[]]
  | c :: cs =>
    if c.toNat = 45 then [] :: splitDash cs
    else
      match splitDash cs with
      | [] => [[c]]
      | p :: ps => (c :: p) :: ps

/-- Source `parseISO(s)`: `const [y,m,dd] = s.split("-").map(Number); return new Date(y, m-1, dd)`.
A component that is not there is `undefined`, which the arithmetic and the constructor turn
into `NaN`. -/
def parseISO (tz : TimeZone) (s : String) : JSDate :=
  let parts := (splitDash s.data).map strToNumber
  let y := (parts.get? 0).join
  let m := (parts.get? 1).join
  let dd := (parts.get? 2).join
  newDate tz y (m.map fun q => q - 1) dd

/-! ## Store operations (`script.js` lines 28-54) -/

/-- Value `{ days:{} }`. -/
def emptyStoreJ : JVal := .obj [("days", .obj [])]

/-- Property read `v.days` on a parsed value: `none` is the TypeError of reading a property
of `null`; `some none` is `undefined` (a primitive or an array has no own `days`). -/
def readDays : JVal → Option (Option JVal)
  | .null => none
  | .obj fields => some (getProp fields "days")
  | .arr _ props => some (getProp props "days")
  | _ => some none

/-- Assignment `v.days = d`: sets the field of an object or array, does nothing on a
primitive. -/
def writeDays (v : JVal) (d : JVal) : JVal :=
  match v with
  | .obj fields => .obj (setProp fields "days" d)
  | .arr items props => .arr items (setProp props "days" d)
  | other => other

/-- Value of `v.days` where the read cannot raise (`v` is not `null`); `none` is `undefined`. -/
def daysField (v : JVal) : Option JVal :=
  match readDays v with
  | some d => d
  | none => none

/-- Source `loadData()`.  `raw` is `localStorage.getItem(STORAGE_KEY)` (`none` is `null`),
`parse` is `JSON.parse`, whose `Except.error` is a thrown SyntaxError.  Every exception ends in
the `catch` branch. -/
def loadData (parse : String → Except String JVal) (raw : Option String) : JVal :=
  match raw with
  | none => emptyStoreJ
  | some text =>
    if text = "" then emptyStoreJ
    else
      match parse text with
      | .error _ => emptyStoreJ
      | .ok obj =>
        match readDays obj with
        | none => emptyStoreJ
        | some days => if !truthyOpt days then writeDays obj (.obj []) else obj

/-- Back-fill of `ensureDay`: the four `??=` assignments. -/
def backfill (r : Day) : Day :=
  { r with
    off := r.off.nullishAssign false
    pushSets := r.pushSets.nullishAssign 0
    hangs := r.hangs.nullishAssign []
    notes := r.notes.nullishAssign "" }

/-- Source `ensureDay(dateStr)`: the store afterwards and the record returned
(`data.days[dateStr]`). -/
def ensureDay (data : Store) (dateStr : String) : Store × Day :=
  match getProp data.days dateStr with
  | none => ({ data with days := setProp data.days dateStr defaultDay }, defaultDay)
  | some r => ({ data with days := setProp data.days dateStr (backfill r) }, backfill r)

/-! ## Derivations (`script.js` lines 56-93) -/

/-- Source `hangToToken(h)`. -/
def hangToToken (h : Hang) : String :=
  "H" ++ numberToString h.sec ++ (if h.feet then "f" else "")

/-- Source `dayToLine(day)`.  `limit` is the longest length of a string in the engine; `none`
is the RangeError of `repeat` or `join` when the string would be longer. -/
def dayToLine (limit : Nat) (day : Day) : Option String :=
  if day.off.truthy then some "DAY OFF"
  else
    let count := (max 0 (day.pushSets.orElse 0)).toNat
    if limit < count then none
    else
      let p := repeatStr "P" count
      let hangs := join " " ((day.hangs.orElse []).map hangToToken)
      if limit < hangs.length then none
      else
        let parts := (if p ≠ "" then [p] else []) ++ (if hangs ≠ "" then [hangs] else [])
        if parts.length ≠ 0 then
          (if limit < (join " " parts).length then none else some (join " " parts))
        else some "—"

/-- Source `daySummary(day)`. -/
def daySummary (day : Day) : String :=
  let reps := jsTimes10 (.fin (day.pushSets.orElse 0))
  let hangs := (day.hangs.orElse []).length
  reps.toText ++ " push-ups · " ++ toString hangs ++ " hang"
    ++ (if hangs = 1 then "" else "s")

/-- Result `{ reps, hangs, offDays }` of `monthTotals`. -/
structure Totals where
  reps : Num
  hangs : Nat
  offDays : Nat
  deriving DecidableEq, Repr

/-- Loop variables `pushSets`, `hangCount`, `offDays` of `monthTotals`. -/
structure Counters where
  pushSets : Num
  hangCount : Nat
  offDays : Nat
  deriving DecidableEq, Repr

/-- One turn of the loop of `monthTotals` on the entry `[k, v]`.  The two counts stay exact:
an array has fewer than 2^32 elements and a store does not hold 2^53 records or hangs. -/
def monthStep (tz : TimeZone) (y m : Option Int) (c : Counters) (kv : String × Day) :
    Counters :=
  let d := parseISO tz kv.1
  if numStrictEq (getFullYear tz d) y && numStrictEq (getMonth tz d) m then
    { pushSets := jsAdd c.pushSets (kv.2.pushSets.orElse 0)
      hangCount := c.hangCount + (kv.2.hangs.orElse []).length
      offDays := if kv.2.off.truthy then c.offDays + 1 else c.offDays }
  else c

/-- Source `monthTotals(viewDate)`. -/
def monthTotals (tz : TimeZone) (data : Store) (viewDate : JSDate) : Totals :=
  let y := getFullYear tz viewDate
  let m := getMonth tz viewDate
  let c := data.days.foldl (monthStep tz y m) { pushSets := 0, hangCount := 0, offDays := 0 }
  { reps := jsTimes10 c.pushSets, hangs := c.hangCount, offDays := c.offDays }

/-! ## Rendering (`script.js` lines 135-284, 385-399): the text shown and the store effect -/

/-- Badge text of the calendar cell of a date whose record is `day` (`none`: no record),
`renderCalendar` lines 185-195. -/
def cellBadge (day : Option Day) : String :=
  if (day.map fun d => d.off.truthy) = some true then "OFF"
  else
    let reps := jsTimes10 (.fin (match day with | some d => d.pushSets.orElse 0 | none => 0))
    let hangs := (match day with | some d => d.hangs.orElse [] | none => []).length
    if reps ≠ 0 ∨ hangs ≠ 0 then reps.toText ++ "·" ++ toString hangs else ""

/-- Summary-line text of the calendar cell, `renderCalendar` lines 198-204; `none` when
`dayToLine` raises. -/
def cellSum (limit : Nat) (day : Option Day) : Option String :=
  match day with
  | some d => dayToLine limit d
  | none => some ""

/-- Texts of the calendar cell of the date with key `ds`: `(badge, sum)`. -/
def calendarCell (limit : Nat) (data : Store) (ds : String) : String × Option String :=
  let day := getProp data.days ds
  (cellBadge day, cellSum limit day)

/-- Application state: `data`, the item of `localStorage`, and `selectedDateStr`
(`none` is `null`). -/
structure App where
  data : Store
  storage : Option Store
  selectedDateStr : Option String

/-- Source `saveData()`. -/
def saveData (a : App) : App := { a with storage := some a.data }

/-- What `renderEditor` writes into the editor: summary, the two inputs, the tokens of the list
of hangs and the log line (the locale-dependent date label and the button label apart).  The
log line is written last; it is `none` when `dayToLine` raises, which ends `renderEditor` and
the handler that called it. -/
structure EditorView where
  selectedSummary : String
  pushSetsInput : Int
  notes : String
  hangList : List String
  logLine : Option String
  deriving DecidableEq, Repr

/-- Source `renderEditor()`: the state afterwards (it calls `ensureDay` before anything can
raise) and the editor. -/
def renderEditor (limit : Nat) (a : App) : App × EditorView :=
  match a.selectedDateStr with
  | none => (a, { selectedSummary := "", pushSetsInput := 0, notes := "", hangList := [],
                  logLine := some "—" })
  | some sel =>
    if sel = "" then
      (a, { selectedSummary := "", pushSetsInput := 0, notes := "", hangList := [],
            logLine := some "—" })
    else
      let r := ensureDay a.data sel
      let day := r.2
      ({ a with data := r.1 },
        { selectedSummary := if day.off.truthy then "DAY OFF" else daySummary day
          pushSetsInput := day.pushSets.orElse 0
          notes := day.notes.orElse ""
          hangList := (day.hangs.orElse []).map hangToToken
          logLine := dayToLine limit day })

/-- Source `renderCalendar()` as far as the state goes: it only reads `data`, whether it
raises or not. -/
def renderCalendar (a : App) : App := a

/-- Value of a numeric input as the handlers read it, `Number(input.value || 0)`:
`none` is the empty input, `some x` an input holding the number `x`. -/
def inputNumber (value : Option ℚ) : ℚ :=
  match value with
  | none => 0
  | some x => x

/-- Source `commitEditorToDay()`; `pushSetsValue` and `notesValue` are the two inputs. -/
def commitEditorToDay (pushSetsValue : Option ℚ) (notesValue : String) (a : App) : App :=
  match a.selectedDateStr with
  | none => a
  | some sel =>
    if sel = "" then a
    else
      let r := ensureDay a.data sel
      let sets := inputNumber pushSetsValue
      let day := { r.2 with pushSets := .val (max 0 (Rat.floor sets)), notes := .val notesValue }
      saveData { a with data := { r.1 with days := setProp r.1.days sel day } }

/-- Source `renderEditorPreview()`: the state afterwards (it calls `ensureDay`) and the two
texts `(selectedSummary, logLine)`; `none` when it returns at once.  The log line is `none`
when `dayToLine` raises. -/
def renderEditorPreview (limit : Nat) (pushSetsValue : Option ℚ) (a : App) :
    App × Option (String × Option String) :=
  match a.selectedDateStr with
  | none => (a, none)
  | some sel =>
    if sel = "" then (a, none)
    else
      let r := ensureDay a.data sel
      let day := r.2
      let sets := inputNumber pushSetsValue
      let temp : Day :=
        { off := day.off
          pushSets := .val (max 0 (Rat.floor sets))
          hangs := .val (day.hangs.orElse [])
          notes := .val (day.notes.orElse "")
          extra := [] }
      ({ a with data := r.1 },
        some (if temp.off.truthy then "DAY OFF" else daySummary temp, dayToLine limit temp))

/-- Click handler of `btnAddHang`; `secondsValue` is the seconds input, `feetChecked` the
check box. -/
def btnAddHangClick (limit : Nat) (secondsValue : Option ℚ) (feetChecked : Bool) (a : App) :
    App :=
  match a.selectedDateStr with
  | none => a
  | some sel =>
    if sel = "" then a
    else
      let sec := inputNumber secondsValue
      if sec = 0 ∨ sec ≤ 0 then a
      else
        let r := ensureDay a.data sel
        let hangs := r.2.hangs.orElse [] ++ [{ sec := Rat.floor sec, feet := feetChecked }]
        let day := { r.2 with hangs := .val hangs }
        let a1 := saveData { a with data := { r.1 with days := setProp r.1.days sel day } }
        renderCalendar (renderEditor limit a1).1

/-- Click handler of `btnClearDay`; `confirmed` is the answer to `confirm(...)`. -/
def btnClearDayClick (limit : Nat) (confirmed : Bool) (a : App) : App :=
  match a.selectedDateStr with
  | none => a
  | some sel =>
    if sel = "" then a
    else if !confirmed then a
    else
      let a1 := { a with data := { a.data with days := deleteProp a.data.days sel } }
      let a2 := saveData a1
      renderCalendar (renderEditor limit a2).1

/-! ## Import (`script.js` lines 414-432) -/

/-- Property read `v[k]` on a value other than `null`, for a key `k` that is no array index and
no built-in name (a date key as `isoDate` writes it, or one of `off`, `pushSets`, `hangs`,
`notes`); `none` is `undefined`. -/
def JVal.getKey (v : JVal) (k : String) : Option JVal :=
  match v with
  | .obj fields => getProp fields k
  | .arr _ props => getProp props k
  | _ => none

/-- Assignment `v[k] = x` for such a key: sets the property of an object or array, does nothing
on a primitive. -/
def JVal.setKey (v : JVal) (k : String) (x : JVal) : JVal :=
  match v with
  | .obj fields => .obj (setProp fields k x)
  | .arr items props => .arr items (setProp props k x)
  | other => other

/-- Literal `{ off:false, pushSets:0, hangs:[], notes:"" }` of `ensureDay`, as a value. -/
def defaultDayJ : JVal :=
  .obj [("off", .bool false), ("pushSets", .num 0), ("hangs", .arr [] []), ("notes", .str "")]

/-- Assignment `r[name] ??= d` on a record `r` of any shape other than `null`. -/
def nullishAssignRaw (r : JVal) (name : String) (d : JVal) : JVal :=
  match r.getKey name with
  | none => r.setKey name d
  | some .null => r.setKey name d
  | some _ => r

/-- Back-fill of `ensureDay` on a record of any shape: the four `??=` assignments. -/
def backfillRaw (r : JVal) : JVal :=
  nullishAssignRaw
    (nullishAssignRaw
      (nullishAssignRaw (nullishAssignRaw r "off" (.bool false)) "pushSets" (.num 0))
      "hangs" (.arr [] []))
    "notes" (.str "")

/-- Source `ensureDay(dateStr)` on a store of any shape: the store afterwards and the value
returned, `data.days[dateStr]`, where `none` is `undefined`.  The result is `none` when reading
`data.days[dateStr]` raises a TypeError (`data` is `null`, or `data.days` is `undefined` or
`null`). -/
def ensureDayRaw (data : JVal) (dateStr : String) : Option (JVal × Option JVal) :=
  match daysField data with
  | none => none
  | some .null => none
  | some days =>
    let days1 :=
      match days.getKey dateStr with
      | none => days.setKey dateStr defaultDayJ
      | some r =>
        if r.truthy then days.setKey dateStr (backfillRaw r)
        else days.setKey dateStr defaultDayJ
    some (writeDays data days1, days1.getKey dateStr)

/-- State that the import handler works on: `data` is whatever value was loaded or imported,
`storage` the value held by `localStorage`, `selectedDateStr` the selected date (`none` is
`null`). -/
structure RawApp where
  data : JVal
  storage : Option JVal
  selectedDateStr : Option String

/-- What the import handler takes from the page around it.  On a store of arbitrary shape the
two render functions can raise where they read a record (a record that is `null`, `hangs` that
is no array, a string that gets too long); which stores they raise on, and with which message,
depends on the engine, on the month shown and on the conversions of values of any shape, and is
given here. -/
structure Page where
  /-- `JSON.parse`, with the message of its SyntaxError. -/
  parse : String → Except String JVal
  /-- Message of the TypeError of reading the property `name` of `undefined` or `null`. -/
  readError : String → String
  /-- Message of the exception that `renderCalendar()` raises on the store, if it raises. -/
  calendarError : JVal → Option String
  /-- Message of the exception that `renderEditor()` raises while it writes the record that
  `ensureDay` returned into the editor, if it raises. -/
  editorError : JVal → Option String

/-- Text of the alert of the `catch` branch for an exception with the message `msg`. -/
def importFailed (msg : String) : String :=
  "Import failed: " ++ (if msg ≠ "" then msg else "Unknown error")

/-- Source `renderEditor()` on a store of any shape: the state afterwards and the message of the
exception, if one is raised (`none`: it returns).  Reading `day.off` raises when `ensureDay`
returned `undefined`. -/
def renderEditorRaw (page : Page) (a : RawApp) : RawApp × Option String :=
  match a.selectedDateStr with
  | none => (a, none)
  | some sel =>
    if sel = "" then (a, none)
    else
      match ensureDayRaw a.data sel with
      | none => (a, some (page.readError sel))
      | some (data1, none) => ({ a with data := data1 }, some (page.readError "off"))
      | some (data1, some day) => ({ a with data := data1 }, page.editorError day)

/-- Change handler of `fileImport`: the state afterwards and the text of the `alert` (`none`
when no file was chosen).  `file` is the chosen file: its text, or the message of the exception
of `file.text()`.  An exception raised anywhere in the `try` block ends in the `catch`
branch. -/
def fileImportChange (page : Page) (file : Option (Except String String)) (a : RawApp) :
    RawApp × Option String :=
  match file with
  | none => (a, none)
  | some (.error msg) => (a, some (importFailed msg))
  | some (.ok text) =>
    match page.parse text with
    | .error msg => (a, some (importFailed msg))
    | .ok obj =>
      if !obj.truthy || !obj.typeofObject || !truthyOpt (daysField obj) then
        (a, some (importFailed "Invalid format"))
      else
        let a1 : RawApp := { a with data := obj, storage := some obj }
        match page.calendarError a1.data with
        | some msg => (a1, some (importFailed msg))
        | none =>
          match renderEditorRaw page a1 with
          | (a2, some msg) => (a2, some (importFailed msg))
          | (a2, none) => (a2, some "Import complete.")

/-! ## Example data -/

/-- Record `{ "off": null, "pushSets": 3, "color": "red" }`. -/
def nullOffDay : Day :=
  { off := .null, pushSets := .val 3, hangs := .absent, notes := .absent,
    extra := [("color", .str "red")] }

/-- Store holding `nullOffDay` under 2026-02-01 and a full record under 2026-02-10. -/
def nullOffStore : Store :=
  { days := [("2026-02-01", nullOffDay),
             ("2026-02-10", { off := .val false, pushSets := .val 2, hangs := .val [],
                              notes := .val "", extra := [] })],
    extra := [] }

/-- A few values of `JSON.parse`: the texts `{"days":0}`, `{"days":{}}`, `5`, `null`,
`{"days":5}`, and a SyntaxError for every other text. -/
def sampleParse (text : String) : Except String JVal :=
  if text = "\x7b\"days\":0\x7d" then .ok (.obj [("days", .num 0)])
  else if text = "\x7b\"days\":\x7b\x7d\x7d" then .ok (.obj [("days", .obj [])])
  else if text = "5" then .ok (.num 5)
  else if text = "null" then .ok .null
  else if text = "\x7b\"days\":5\x7d" then .ok (.obj [("days", .num 5)])
  else .error "Unexpected token"

/-- Import state whose store holds a record under 2026-02-01, also persisted, with 2026-02-05
selected. -/
def sampleRawApp : RawApp :=
  { data := .obj [("days", .obj [("2026-02-01", .obj [("pushSets", .num 3)])])],
    storage := some (.obj [("days", .obj [("2026-02-01", .obj [("pushSets", .num 3)])])])
    selectedDateStr := some "2026-02-05" }

/-- A page with the parser `sampleParse` and the message of V8 for a read on `undefined`, on
which the re-render raises nothing where it reads records (as is the case for the stores
`{"days":5}` and `{"days":{}}`, which hold no record). -/
def samplePage : Page :=
  { parse := sampleParse
    readError := fun name => "Cannot read properties of undefined (reading '" ++ name ++ "')"
    calendarError := fun _ => none
    editorError := fun _ => none }

/-- The record that `ensureDay` leaves under a date, from what was read there before: the
back-filled record when there was a truthy one, the all-default record otherwise. -/
def ensuredRecord (r : Option JVal) : JVal :=
  match r with
  | some r => if r.truthy then backfillRaw r else defaultDayJ
  | none => defaultDayJ

/-- The record of the date `k` in a store of any shape, `data.days[k]`; `none` is
`undefined`. -/
def entryOf (data : JVal) (k : String) : Option JVal :=
  match daysField data with
  | some days => days.getKey k
  | none => none

/-- Application state with 2026-02-01 selected, whose store holds a record under 2026-02-05 that
is not persisted (as after a click on the cell of 2026-02-05 and one on the cell of
2026-02-01). -/
def unsavedApp : App :=
  { data := { days := [("2026-02-01", { off := .val false, pushSets := .val 2, hangs := .val [],
                                        notes := .val "", extra := [] }),
                       ("2026-02-05", defaultDay)],
              extra := [] }
    storage := some { days := [("2026-02-01", { off := .val false, pushSets := .val 2,
                                                hangs := .val [], notes := .val "",
                                                extra := [] })],
                      extra := [] }
    selectedDateStr := some "2026-02-01" }

/-- Application state with 2026-02-01 selected, holding `nullOffStore`, also persisted. -/
def sampleApp : App :=
  { data := nullOffStore, storage := some nullOffStore, selectedDateStr := some "2026-02-01" }

/-- Whether a value is a number, string or boolean. -/
def JVal.isPrimitive : JVal → Bool
  | .bool _ => true
  | .num _ => true
  | .str _ => true
  | _ => false

/-- Flag `day?.off` as a condition, for the record of a date that may have none. -/
def offOf (day : Option Day) : Bool :=
  match day with
  | some d => d.off.truthy
  | none => false

/-- List `day?.hangs || []`, for the record of a date that may have none. -/
def hangsOf (day : Option Day) : List Hang :=
  match day with
  | some d => d.hangs.orElse []
  | none => []

/-- Application state with an empty store and 2026-02-01 selected. -/
def emptyApp : App :=
  { data := { days := [], extra := [] }, storage := none,
    selectedDateStr := some "2026-02-01" }

/-- The store obtained by inserting the all-default record under the date `d`. -/
def insertDefault (data : Store) (d : String) : Store :=
  { data with days := setProp data.days d defaultDay }

/-! ## Keys of the form YYYY-MM-DD (the hypothesis of the claims on `monthTotals`) -/

/-- Number written by a list of decimal digits. -/
def digitsNat (ds : List Char) : Nat :=
  ds.foldl (fun n c => n * 10 + (c.toNat - 48)) 0

/-- Year, month and day written in a key of the form `dddd-dd-dd` (each `d` a decimal digit);
`none` for a key of any other form. -/
def isoKeyFields (k : String) : Option (Nat × Nat × Nat) :=
  match k.data with
  | [y1, y2, y3, y4, s1, m1, m2, s2, d1, d2] =>
    if (∀ c ∈ [y1, y2, y3, y4, m1, m2, d1, d2], isDecimalDigit c = true) ∧
        s1.toNat = 45 ∧ s2.toNat = 45 then
      some (digitsNat [y1, y2, y3, y4], digitsNat [m1, m2], digitsNat [d1, d2])
    else none
  | _ => none

/-- Number of days of month `m` (1 = January) of year `y` in the civil calendar. -/
def daysInMonthOf (y m : Nat) : Nat :=
  if m = 2 then (if y % 4 = 0 ∧ (y % 100 ≠ 0 ∨ y % 400 = 0) then 29 else 28)
  else if m = 4 ∨ m = 6 ∨ m = 9 ∨ m = 11 then 30
  else 31

/-- A key that is a valid date in the form YYYY-MM-DD: month 1..12 and a day that exists in
that month. -/
def validISODate (k : String) : Bool :=
  match isoKeyFields k with
  | some (y, m, d) => decide (1 ≤ m ∧ m ≤ 12 ∧ 1 ≤ d ∧ d ≤ daysInMonthOf y m)
  | none => false

/-- Year written in a key of the form YYYY-MM-DD. -/
def keyYear (k : String) : Nat :=
  match isoKeyFields k with
  | some (y, _, _) => y
  | none => 0

/-- Month (1 = January) written in a key of the form YYYY-MM-DD. -/
def keyMonth (k : String) : Nat :=
  match isoKeyFields k with
  | some (_, m, _) => m
  | none => 0

/-- Whether the key of an entry lies in year `y` and month `m` (0 = January, as `getMonth`). -/
def keyInMonth (y m : Int) (kv : String × Day) : Bool :=
  decide ((keyYear kv.1 : Int) = y ∧ (keyMonth kv.1 : Int) = m + 1)

/-- The totals as the claim describes them, from the dates written in the keys: ten times
the sum of `pushSets`, the sum of the numbers of hangs, and the number of records marked off,
over the records whose key lies in year `y` and month `m` (0 = January). -/
def totalsByKey (days : List (String × Day)) (y m : Int) : Totals :=
  let recs := days.filter (keyInMonth y m)
  { reps := .fin (10 * (recs.map fun kv => kv.2.pushSets.orElse 0).sum)
    hangs := (recs.map fun kv => (kv.2.hangs.orElse []).length).sum
    offDays := recs.countP fun kv => kv.2.off.truthy }

/-- The store of the example in the specification: 2026-02-01 marked off, 2026-02-10 with two
sets, 2026-03-01 with five sets. -/
def exampleStore : Store :=
  { days := [("2026-02-01", { off := .val true, pushSets := .absent, hangs := .absent,
                              notes := .absent, extra := [] }),
             ("2026-02-10", { off := .absent, pushSets := .val 2, hangs := .absent,
                              notes := .absent, extra := [] }),
             ("2026-03-01", { off := .absent, pushSets := .val 5, hangs := .absent,
                              notes := .absent, extra := [] })],
    extra := [] }

/-- Store with one record, three sets, under the key 0050-02-01. -/
def year50Store : Store :=
  { days := [("0050-02-01", { off := .val false, pushSets := .val 3, hangs := .val [],
                              notes := .val "", extra := [] })],
    extra := [] }

/-- Store with one record, one set, under the key 2026-01-32. -/
def day32Store : Store :=
  { days := [("2026-01-32", { off := .val false, pushSets := .val 1, hangs := .val [],
                              notes := .val "", extra := [] })],
    extra := [] }

/-- Store with one record, one set, under the key 2026-14-01. -/
def month14Store : Store :=
  { days := [("2026-14-01", { off := .val false, pushSets := .val 1, hangs := .val [],
                              notes := .val "", extra := [] })],
    extra := [] }

/-- The date `new Date(2026, 1, 1)` in the zone of UTC, in February 2026. -/
def feb2026 : JSDate := newDate utcZone (some 2026) (some 1) (some 1)

/-- The date `new Date(2027, 1, 1)` in the zone of UTC, in February 2027. -/
def feb2027 : JSDate := newDate utcZone (some 2027) (some 1) (some 1)

/-- The date `new Date(1950, 1, 1)` in the zone of UTC, in February 1950. -/
def feb1950 : JSDate := newDate utcZone (some 1950) (some 1) (some 1)

/-- Day number of the date written in a key of the form YYYY-MM-DD, as `new Date(y, m - 1, d)`
counts it. -/
def keyDay (k : String) : Int :=
  match isoKeyFields k with
  | some (y, m, d) => civilDay y ((m : Int) - 1) d
  | none => 0

/-- Whether the zone keeps the local day `day`: the local midnight that starts it is a valid
time value once taken to UTC, and the local time of that instant lies in the same day.  (A day
that the clocks of the zone skipped is not kept.) -/
def zoneKeepsDay (tz : TimeZone) (day : Int) : Bool :=
  match timeClip (tz.utcOf (day * msPerDay)) with
  | some t => decide (localDay tz t = day)
  | none => false

/-- The `pushSets` of a list of records, added up in absolute value. -/
def pushSetsBound (days : List (String × Day)) : Nat :=
  (days.map fun kv => (kv.2.pushSets.orElse 0).natAbs).sum

/-- A zone that goes from UTC-10 to UTC+14 at the end of 30 December 1994, as the Line Islands
did: the local day 1994-12-31 does not exist.  A local time that was skipped is read with the
offset of before the change. -/
def lineIslandsZone : TimeZone :=
  { localOf := fun t => if t < 788868000000 then t - 36000000 else t + 50400000
    utcOf := fun t => if t < 788918400000 then t + 36000000 else t - 50400000 }

/-- The date `new Date(1995, 0, 1)` in `lineIslandsZone`, in January 1995. -/
def jan1995 : JSDate := newDate lineIslandsZone (some 1995) (some 0) (some 1)

/-- Store with one record, one set, under the key 1994-12-31. -/
def skippedDayStore : Store :=
  { days := [("1994-12-31", { off := .val false, pushSets := .val 1, hangs := .val [],
                              notes := .val "", extra := [] })],
    extra := [] }

/-- Store with 2^53 sets under 2026-02-01 and one set under 2026-02-10. -/
def bigStore : Store :=
  { days := [("2026-02-01", { off := .val false, pushSets := .val 9007199254740992,
                              hangs := .val [], notes := .val "", extra := [] }),
             ("2026-02-10", { off := .val false, pushSets := .val 1, hangs := .val [],
                              notes := .val "", extra := [] })],
    extra := [] }

/-- Store with a record under the key `2026-02` (no day) and one under `soon`. -/
def oddKeysStore : Store :=
  { days := [("2026-02", { off := .val true, pushSets := .val 4, hangs := .val [],
                           notes := .val "", extra := [] }),
             ("soon", { off := .val false, pushSets := .val 1, hangs := .val [],
                        notes := .val "", extra := [] })],
    extra := [] }

/-- The token of a hang as the claim describes it: "H", the decimal seconds, and "f" when the
feet touched. -/
def decimalToken (h : Hang) : String :=
  "H" ++ toString h.sec ++ (if h.feet then "f" else "")

/-- The parts of the line of a day as the claim describes them: the letter P repeated `n`
times (left out when `n = 0`), then the token of each hang in list order. -/
def lineParts (n : Nat) (hs : List Hang) : List String :=
  (if n = 0 then [] else [String.mk (List.replicate n 'P')]) ++ hs.map decimalToken

/-- Longest string of V8 on a 64-bit machine: 2^29 - 24 characters. -/
def sampleLimit : Nat := 536870888

/-- A hang of 10^21 seconds. -/
def longHang : Hang := { sec := 1000000000000000000000, feet := false }

/-- A hang of 2^64 seconds. -/
def hang2p64 : Hang := { sec := 18446744073709551616, feet := false }

/-! ## Lemmas on objects -/

theorem getProp_setProp_same {α : Type} (o : List (String × α)) (k : String) (v : α) :
    getProp (setProp o k v) k = some v := by
  induction o with
  | nil => simp [setProp, getProp]
  | cons e rest ih =>
    obtain ⟨k', v'⟩ := e
    by_cases h : k' = k
    · simp [setProp, getProp, h]
    · simp [setProp, getProp, h, ih]

theorem getProp_setProp_other {α : Type} (o : List (String × α)) (k k' : String) (v : α)
    (h : k' ≠ k) : getProp (setProp o k v) k' = getProp o k' := by
  induction o with
  | nil => simp [setProp, getProp, Ne.symm h]
  | cons e rest ih =>
    obtain ⟨k0, v0⟩ := e
    by_cases h0 : k0 = k
    · subst h0
      simp [setProp, getProp, Ne.symm h]
    · by_cases h1 : k0 = k'
      · subst h1
        simp [setProp, getProp, h0]
      · simp [setProp, getProp, h0, h1, ih]

theorem deleteProp_cons {α : Type} (k0 : String) (v0 : α) (rest : List (String × α))
    (k : String) :
    deleteProp ((k0, v0) :: rest) k
      = if k0 = k then deleteProp rest k else (k0, v0) :: deleteProp rest k := by
  by_cases h0 : k0 = k <;> simp [deleteProp, List.filter, h0]

theorem getProp_deleteProp_same {α : Type} (o : List (String × α)) (k : String) :
    getProp (deleteProp o k) k = none := by
  induction o with
  | nil => rfl
  | cons e rest ih =>
    obtain ⟨k0, v0⟩ := e
    rw [deleteProp_cons]
    by_cases h0 : k0 = k
    · simp [h0, ih]
    · simp [h0, getProp, ih]

theorem getProp_deleteProp_other {α : Type} (o : List (String × α)) (k k' : String)
    (h : k' ≠ k) : getProp (deleteProp o k) k' = getProp o k' := by
  induction o with
  | nil => rfl
  | cons e rest ih =>
    obtain ⟨k0, v0⟩ := e
    rw [deleteProp_cons]
    by_cases h0 : k0 = k
    · have h1 : ¬ k = k' := fun e => h e.symm
      simp [h0, getProp, ih, h1]
    · simp [h0, getProp, ih]

theorem ensureDay_days_same (data : Store) (k : String) :
    getProp (ensureDay data k).1.days k = some (ensureDay data k).2 := by
  unfold ensureDay
  cases getProp data.days k <;> simp [getProp_setProp_same]

theorem ensureDay_days_other (data : Store) (k k' : String) (h : k' ≠ k) :
    getProp (ensureDay data k).1.days k' = getProp data.days k' := by
  unfold ensureDay
  cases getProp data.days k <;> simp [getProp_setProp_other _ _ _ _ h]

/-! ## Lemmas on rounding -/

theorem ulpFrom_spec (v : Nat) (fuel u : Nat) :
    ∃ j, j ≤ fuel ∧ ulpFrom v fuel u = 2 ^ j * u ∧
      (j = 0 ∨ 2 ^ (j - 1) * u * 2 ^ 53 ≤ v) ∧
      (v < ulpFrom v fuel u * 2 ^ 53 ∨ j = fuel) := by
  induction fuel generalizing u with
  | zero => exact ⟨0, le_refl _, by rw [ulpFrom, pow_zero, one_mul], Or.inl rfl, Or.inr rfl⟩
  | succ f ih =>
    by_cases h : v < u * 2 ^ 53
    · have hu : ulpFrom v (f + 1) u = u := by rw [ulpFrom, if_pos h]
      refine ⟨0, Nat.zero_le _, by rw [hu, pow_zero, one_mul], Or.inl rfl, Or.inl ?_⟩
      rw [hu]
      exact h
    · obtain ⟨j, hj, he, hb, hc⟩ := ih (2 * u)
      have hu : ulpFrom v (f + 1) u = ulpFrom v f (2 * u) := by rw [ulpFrom, if_neg h]
      refine ⟨j + 1, Nat.succ_le_succ hj, ?_, Or.inr ?_, ?_⟩
      · rw [hu, he, pow_succ]
        ring
      · rw [Nat.add_sub_cancel]
        rcases Nat.eq_zero_or_pos j with h0 | h0
        · subst h0
          rw [pow_zero, one_mul]
          exact Nat.le_of_not_lt h
        · rcases hb with hb | hb
          · omega
          · have : 2 ^ j = 2 ^ (j - 1) * 2 := by
              rw [← pow_succ]
              congr 1
              omega
            rw [this]
            calc 2 ^ (j - 1) * 2 * u * 2 ^ 53 = 2 ^ (j - 1) * (2 * u) * 2 ^ 53 := by ring
              _ ≤ v := hb
      · rw [hu]
        rcases hc with hc | hc
        · exact Or.inl hc
        · exact Or.inr (by omega)

theorem ulp_spec (v : Nat) :
    ∃ j, j ≤ 971 ∧ ulp v = 2 ^ j ∧ (j = 0 ∨ 2 ^ (j - 1) * 2 ^ 53 ≤ v) ∧
      (v < 2 ^ j * 2 ^ 53 ∨ j = 971) := by
  obtain ⟨j, hj, he, hb, hc⟩ := ulpFrom_spec v 971 1
  refine ⟨j, hj, by simpa [ulp] using he, by simpa using hb, ?_⟩
  rw [he] at hc
  simpa using hc

theorem roundDouble_multiple (v : Nat) :
    ∃ m, roundDouble v = m * ulp v ∧ v / ulp v ≤ m ∧ m ≤ v / ulp v + 1 := by
  unfold roundDouble
  simp only
  split_ifs
  · exact ⟨_, rfl, le_refl _, Nat.le_succ _⟩
  · exact ⟨_, rfl, Nat.le_succ _, le_refl _⟩
  · exact ⟨_, rfl, le_refl _, Nat.le_succ _⟩
  · exact ⟨_, rfl, Nat.le_succ _, le_refl _⟩

theorem roundDouble_of_dvd (w : Nat) (h : ulp w ∣ w) : roundDouble w = w := by
  obtain ⟨j, _, he, _, _⟩ := ulp_spec w
  have hpos : 0 < ulp w := by
    rw [he]
    exact Nat.pos_pow_of_pos _ (by decide)
  have hr : w % ulp w = 0 := Nat.mod_eq_zero_of_dvd h
  unfold roundDouble
  simp only [hr, Nat.mul_zero, hpos, if_true]
  exact Nat.div_mul_cancel h

theorem roundDouble_idem (v : Nat) : roundDouble (roundDouble v) = roundDouble v := by
  apply roundDouble_of_dvd
  obtain ⟨m, hm, hm1, hm2⟩ := roundDouble_multiple v
  obtain ⟨j, hj, he, hb, hc⟩ := ulp_spec v
  obtain ⟨j', hj', he', hb', hc'⟩ := ulp_spec (roundDouble v)
  rw [he', hm, he]
  have hupos : 0 < 2 ^ j := Nat.pos_pow_of_pos _ (by decide)
  by_cases hjj : j' ≤ j
  · exact Dvd.dvd.mul_left (pow_dvd_pow 2 hjj) m
  · have hlt : j < j' := Nat.lt_of_not_le hjj
    have hj971 : j ≠ 971 := by omega
    have hv : v < 2 ^ j * 2 ^ 53 := by
      rcases hc with hc | hc
      · exact hc
      · exact absurd hc hj971
    have hq : v / 2 ^ j < 2 ^ 53 := by
      rw [Nat.div_lt_iff_lt_mul hupos]
      rw [mul_comm]
      exact hv
    have hj0 : j' ≠ 0 := by omega
    have hw : 2 ^ (j' - 1) * 2 ^ 53 ≤ m * 2 ^ j := by
      rcases hb' with hb' | hb'
      · exact absurd hb' hj0
      · rw [hm, he] at hb'
        exact hb'
    have hmle : m ≤ 2 ^ 53 := by
      rw [he] at hm2
      omega
    have h1 : 2 ^ (j' - 1) * 2 ^ 53 ≤ 2 ^ 53 * 2 ^ j :=
      le_trans hw (Nat.mul_le_mul_right _ hmle)
    have h2 : 2 ^ (j' - 1) ≤ 2 ^ j := by
      rw [mul_comm] at h1
      exact Nat.le_of_mul_le_mul_left h1 (by positivity)
    have h3 : j' - 1 ≤ j := (Nat.pow_le_pow_iff_right (by decide)).mp h2
    have h4 : j' = j + 1 := by omega
    have h5 : 2 ^ j ≤ 2 ^ (j' - 1) := Nat.pow_le_pow_right (by decide) (by omega)
    have hmge : 2 ^ 53 ≤ m := by
      by_contra hcon
      have hm' : m + 1 ≤ 2 ^ 53 := by omega
      have : m * 2 ^ j < 2 ^ 53 * 2 ^ j := Nat.mul_lt_mul_of_pos_right (by omega) hupos
      have h6 : 2 ^ j * 2 ^ 53 ≤ 2 ^ (j' - 1) * 2 ^ 53 := Nat.mul_le_mul_right _ h5
      have h7 : 2 ^ j * 2 ^ 53 = 2 ^ 53 * 2 ^ j := mul_comm _ _
      omega
    have hmeq : m = 2 ^ 53 := le_antisymm hmle hmge
    rw [hmeq, h4, ← pow_add]
    exact pow_dvd_pow 2 (by omega)

theorem roundDouble_of_le (v : Nat) (h : v ≤ 2 ^ 53) : roundDouble v = v := by
  apply roundDouble_of_dvd
  rcases Nat.lt_or_eq_of_le h with h | h
  · have : ulp v = 1 := by
      have h1 : v < 1 * 2 ^ 53 := by omega
      unfold ulp
      rw [show (971 : Nat) = 970 + 1 from rfl, ulpFrom, if_pos h1]
    rw [this]
    exact one_dvd _
  · subst h
    decide

theorem roundDoubleInt_idem (x : Int) : roundDoubleInt (roundDoubleInt x) = roundDoubleInt x := by
  unfold roundDoubleInt
  by_cases hx : x < 0
  · simp only [hx, if_true]
    by_cases h0 : roundDouble x.natAbs = 0
    · simp [h0, roundDouble_of_le]
    · have hneg : -((roundDouble x.natAbs : Nat) : Int) < 0 := by
        have : 0 < roundDouble x.natAbs := Nat.pos_of_ne_zero h0
        omega
      simp only [hneg, if_true, Int.natAbs_neg, Int.natAbs_ofNat, roundDouble_idem]
  · simp only [hx, if_false]
    have hnn : ¬ ((roundDouble x.natAbs : Nat) : Int) < 0 := by omega
    simp only [hnn, if_false, Int.natAbs_ofNat, roundDouble_idem]

theorem roundDoubleInt_of_le (x : Int) (h : x.natAbs ≤ 2 ^ 53) : roundDoubleInt x = x := by
  unfold roundDoubleInt
  rw [roundDouble_of_le _ h]
  split_ifs with hx
  · omega
  · omega

theorem natAbs_roundDoubleInt (x : Int) : (roundDoubleInt x).natAbs = roundDouble x.natAbs := by
  unfold roundDoubleInt
  split_ifs
  · rw [Int.natAbs_neg, Int.natAbs_ofNat]
  · rw [Int.natAbs_ofNat]

theorem belowInfinity_of_le (v : Nat) (h : v ≤ 2 ^ 53) : belowInfinity v = true := by
  rcases Nat.lt_or_eq_of_le h with h | h
  · have h1 : v < 1 * 2 ^ 53 := by omega
    have hu : ulp v = 1 := by
      unfold ulp
      rw [show (971 : Nat) = 970 + 1 from rfl, ulpFrom, if_pos h1]
    simp only [belowInfinity, hu, decide_eq_true_eq]
    exact h1
  · subst h
    decide

theorem roundNum_of_le (x : Int) (h : x.natAbs ≤ 2 ^ 53) : roundNum x = .fin x := by
  unfold roundNum
  rw [roundDouble_of_le _ h, roundDoubleInt_of_le _ h, belowInfinity_of_le _ h]
  rfl

theorem jsAdd_roundNum_zero (y : Int) : jsAdd (roundNum y) 0 = roundNum y := by
  unfold roundNum
  by_cases h : belowInfinity (roundDouble y.natAbs) = true
  · rw [if_pos h]
    simp only [jsAdd, add_zero]
    unfold roundNum
    rw [natAbs_roundDoubleInt, roundDouble_idem, if_pos h, roundDoubleInt_idem]
  · rw [if_neg h]
    split_ifs <;> rfl

theorem jsAdd_jsAdd_zero (c : Num) (b : Int) : jsAdd (jsAdd c b) 0 = jsAdd c b := by
  cases c with
  | fin x => exact jsAdd_roundNum_zero _
  | posInf => rfl
  | negInf => rfl

/-! ## Lemmas on strings and joins -/

theorem append_eq_empty_iff (s t : String) : s ++ t = "" ↔ s = "" ∧ t = "" := by
  constructor
  · intro h
    have h1 : (s ++ t).data = [] := by rw [h]
    rw [String.data_append, List.append_eq_nil] at h1
    exact ⟨String.ext h1.1, String.ext h1.2⟩
  · rintro ⟨rfl, rfl⟩
    rfl

theorem repeatStr_P (n : Nat) : repeatStr "P" n = String.mk (List.replicate n 'P') := by
  induction n with
  | zero => rfl
  | succ k ih =>
    rw [repeatStr, ih]
    apply String.ext
    rw [String.data_append]
    rfl

theorem repeatStr_P_eq_empty (n : Nat) : repeatStr "P" n = "" ↔ n = 0 := by
  cases n with
  | zero => simp [repeatStr]
  | succ k =>
    simp only [repeatStr, append_eq_empty_iff]
    constructor
    · rintro ⟨h, _⟩
      exact absurd h (by decide)
    · intro h
      exact absurd h (Nat.succ_ne_zero k)

theorem join_cons_ne_empty (sep a : String) (rest : List String) (ha : a ≠ "") :
    join sep (a :: rest) ≠ "" := by
  cases rest with
  | nil => simpa [join] using ha
  | cons b more =>
    rw [join]
    intro he
    rw [append_eq_empty_iff, append_eq_empty_iff] at he
    exact ha he.1.1

/-! ## C1: `dayToLine` -/

theorem digitChar_ne_space : ∀ n, n < 10 → Nat.digitChar n ≠ ' ' := by
  decide

theorem toDigitsCore_no_space (fuel n : Nat) (acc : List Char) (h : ∀ c ∈ acc, c ≠ ' ') :
    ∀ c ∈ Nat.toDigitsCore 10 fuel n acc, c ≠ ' ' := by
  induction fuel generalizing n acc with
  | zero => simpa [Nat.toDigitsCore] using h
  | succ f ih =>
    have hcons : ∀ c ∈ Nat.digitChar (n % 10) :: acc, c ≠ ' ' := by
      intro c hc
      rcases List.mem_cons.mp hc with rfl | hc
      · exact digitChar_ne_space _ (Nat.mod_lt _ (by decide))
      · exact h c hc
    simp only [Nat.toDigitsCore]
    split_ifs
    · exact hcons
    · exact ih _ _ hcons

theorem nat_repr_no_space (n : Nat) : ∀ c ∈ (Nat.repr n).data, c ≠ ' ' := by
  intro c hc
  exact toDigitsCore_no_space _ _ [] (by simp) c hc

theorem int_toString_no_space (i : Int) : ∀ c ∈ (toString i).data, c ≠ ' ' := by
  cases i with
  | ofNat m => exact nat_repr_no_space m
  | negSucc m =>
    intro c hc
    have hc' : c ∈ ("-" ++ Nat.repr (Nat.succ m)).data := hc
    rw [String.data_append, List.mem_append] at hc'
    rcases hc' with h | h
    · have : c = '-' := by simpa using h
      rw [this]
      decide
    · exact nat_repr_no_space _ c h

theorem natToString_of_le (v : Nat) (h : v ≤ 2 ^ 53) : natToString v = toString v := by
  unfold natToString
  rw [if_pos h]

theorem numberToString_of_le (x : Int) (h : x.natAbs ≤ 2 ^ 53) :
    numberToString x = toString x := by
  unfold numberToString
  rw [roundNum_of_le _ h]
  unfold Num.toText
  simp only
  rw [natToString_of_le _ h]
  cases x with
  | ofNat m =>
    have : ¬ Int.ofNat m < 0 := Int.not_lt.mpr (Int.ofNat_zero_le m)
    rw [if_neg this]
    rfl
  | negSucc m =>
    have : Int.negSucc m < 0 := Int.negSucc_lt_zero m
    rw [if_pos this]
    rfl

theorem hangToToken_of_le (h : Hang) (hsec : h.sec.natAbs ≤ 2 ^ 53) :
    hangToToken h = decimalToken h := by
  unfold hangToToken decimalToken
  rw [numberToString_of_le _ hsec]

theorem map_hangToToken_of_le (hs : List Hang) (hsec : ∀ h ∈ hs, h.sec.natAbs ≤ 2 ^ 53) :
    hs.map hangToToken = hs.map decimalToken :=
  List.map_congr_left fun h hh => hangToToken_of_le h (hsec h hh)

theorem decimalToken_ne_empty (h : Hang) : decimalToken h ≠ "" := by
  unfold decimalToken
  intro hc
  have h1 := ((append_eq_empty_iff _ _).mp hc).1
  have h2 := ((append_eq_empty_iff _ _).mp h1).1
  exact absurd h2 (by decide)

theorem decimalToken_no_space (h : Hang) : ∀ c ∈ (decimalToken h).data, c ≠ ' ' := by
  intro c hc
  unfold decimalToken at hc
  rw [String.data_append, String.data_append, List.mem_append, List.mem_append] at hc
  rcases hc with (hc | hc) | hc
  · have : c = 'H' := by simpa using hc
    rw [this]
    decide
  · exact int_toString_no_space _ c hc
  · cases hf : h.feet
    · simp [hf] at hc
    · have : c = 'f' := by simpa [hf] using hc
      rw [this]
      decide

theorem repeatStr_P_length (n : Nat) : (repeatStr "P" n).length = n := by
  rw [repeatStr_P]
  simp

/-- C1 as stated fails.  A hang of 10^21 seconds has the token "H1e+21", not "H" followed by
the decimal seconds; a hang of 2^64 seconds has the token "H18446744073709552000", which are not
the digits of 2^64; and with one set more than the longest string has characters, `dayToLine`
raises instead of returning the letters "P". -/
theorem dayToLine_large_numbers :
    dayToLine sampleLimit { off := .val false, pushSets := .val 0, hangs := .val [longHang],
                            notes := .val "", extra := [] } = some "H1e+21" ∧
      join " " (lineParts 0 [longHang]) = "H1000000000000000000000" ∧
      hangToToken hang2p64 = "H18446744073709552000" ∧
      decimalToken hang2p64 = "H18446744073709551616" ∧
      dayToLine sampleLimit { off := .val false, pushSets := .val (sampleLimit + 1 : Nat),
                              hangs := .val [], notes := .val "", extra := [] } = none := by
  refine ⟨by decide, by decide, by decide, by decide, by decide⟩

/-- C1, amended.  `dayToLine` returns "DAY OFF" when `off` is true, whatever the other fields
are.  When `off` is false, with `pushSets = n ≥ 0` and `hangs = hs`, where the seconds of every
hang are at most 2^53 in absolute value and the line described here is not longer than the
longest string of the engine (`limit`), it returns "—" if `n = 0` and `hs` is empty, and
otherwise the parts "P" repeated `n` times (left out when `n = 0`) and the tokens of the hangs
in list order, joined by single spaces; the token of a hang is "H", the decimal seconds, and
"f" when the feet touched.  Every part is non-empty and holds no space, so the line has no
leading, trailing or double space. -/
theorem dayToLine_spec (limit : Nat) :
    (∀ (ps : Field Int) (hs : Field (List Hang)) (nt : Field String) (ex : List (String × JVal)),
        dayToLine limit { off := .val true, pushSets := ps, hangs := hs, notes := nt, extra := ex }
          = some "DAY OFF") ∧
    (∀ (n : Nat) (hs : List Hang) (nt : Field String) (ex : List (String × JVal)),
        (∀ h ∈ hs, h.sec.natAbs ≤ 2 ^ 53) → (join " " (lineParts n hs)).length ≤ limit →
        dayToLine limit { off := .val false, pushSets := .val (n : Int), hangs := .val hs,
                          notes := nt, extra := ex }
          = some (if n = 0 ∧ hs = [] then "—" else join " " (lineParts n hs))) ∧
    (∀ (n : Nat) (hs : List Hang), ∀ p ∈ lineParts n hs, p ≠ "" ∧ ∀ c ∈ p.data, c ≠ ' ') := by
  refine ⟨fun ps hs nt ex => rfl, fun n hs nt ex hsec hlen => ?_, fun n hs p hp => ?_⟩
  · have hmax : (max 0 (n : Int)).toNat = n := by
      rw [max_eq_right (Int.ofNat_nonneg n)]
      exact Int.toNat_natCast n
    unfold lineParts at hlen ⊢
    simp only [dayToLine, Field.truthy, Field.orElse, hmax, Bool.false_eq_true, if_false,
      map_hangToToken_of_le hs hsec]
    rcases Nat.eq_zero_or_pos n with hn | hn
    · subst hn
      simp only [if_true, List.nil_append] at hlen
      have h0 : ¬ limit < 0 := Nat.not_lt_zero _
      have hl : ¬ limit < (join " " (hs.map decimalToken)).length := Nat.not_lt.mpr hlen
      cases hs with
      | nil => simp [repeatStr, join]
      | cons h rest =>
        have hne : join " " (decimalToken h :: List.map decimalToken rest) ≠ "" :=
          join_cons_ne_empty _ _ _ (decimalToken_ne_empty h)
        simp only [List.map_cons] at hl
        simp [repeatStr, join, hne, hl]
    · have hn0 : n ≠ 0 := Nat.pos_iff_ne_zero.mp hn
      have hp : repeatStr "P" n ≠ "" := fun h => hn0 ((repeatStr_P_eq_empty n).mp h)
      have hq : String.mk (List.replicate n 'P') = repeatStr "P" n := (repeatStr_P n).symm
      rw [hq] at hlen ⊢
      simp only [hn0, if_false] at hlen
      cases hs with
      | nil =>
        simp only [List.map_nil, List.append_nil, join] at hlen
        rw [repeatStr_P_length] at hlen
        have hl : ¬ limit < n := Nat.not_lt.mpr hlen
        have hl2 : ¬ limit < (repeatStr "P" n).length := by
          rw [repeatStr_P_length]
          exact hl
        simp [hp, hn0, join, hl, hl2]
      | cons h rest =>
        have hne : join " " (decimalToken h :: List.map decimalToken rest) ≠ "" :=
          join_cons_ne_empty _ _ _ (decimalToken_ne_empty h)
        simp only [List.map_cons, List.singleton_append, join, String.length_append,
          repeatStr_P_length] at hlen
        have hl : ¬ limit < n := by omega
        have hl2 : ¬ limit < (join " " (decimalToken h :: List.map decimalToken rest)).length := by
          omega
        simp [hp, hn0, join, hne, hl, hl2]
        rw [repeatStr_P_length]
        exact hlen
  · unfold lineParts at hp
    rw [List.mem_append] at hp
    rcases hp with hp | hp
    · by_cases hn : n = 0
      · simp [hn] at hp
      · simp only [hn, if_false, List.mem_singleton] at hp
        subst hp
        constructor
        · rw [← repeatStr_P]
          exact fun h => hn ((repeatStr_P_eq_empty n).mp h)
        · intro c hc
          have : c = 'P' := (List.mem_replicate.mp hc).2
          rw [this]
          decide
    · obtain ⟨h, _, rfl⟩ := List.mem_map.mp hp
      exact ⟨decimalToken_ne_empty h, decimalToken_no_space h⟩

/-- Witness of `dayToLine_spec`: three sets and the hangs 40 s (feet touching) and 25 s give the
line "PPP H40f H25". -/
theorem dayToLine_spec_witness :
    dayToLine sampleLimit
        { off := .val false, pushSets := .val 3,
          hangs := .val [{ sec := 40, feet := true }, { sec := 25, feet := false }],
          notes := .val "", extra := [] } = some "PPP H40f H25" :=
  ((dayToLine_spec sampleLimit).2.1 3 [{ sec := 40, feet := true }, { sec := 25, feet := false }]
    (.val "") [] (by decide) (by decide)).trans (by decide)

/-! ## C3: `ensureDay` -/

/-- C3 as stated fails: a field that is present with the value `null` does not keep its value.
The record under 2026-02-01 has `off: null`; after `ensureDay` its `off` is `false`. -/
theorem ensureDay_null_field_not_kept :
    getProp nullOffStore.days "2026-02-01" = some nullOffDay ∧
      nullOffDay.off ≠ Field.absent ∧
      (ensureDay nullOffStore "2026-02-01").2.off ≠ nullOffDay.off := by
  refine ⟨rfl, ?_, ?_⟩ <;> decide

/-- C3, amended.  `ensureDay(k)` returns the record that the store holds under `k` afterwards.
With no record under `k` before, that record is the all-default one.  With a record before,
each of `off`, `pushSets`, `hangs`, `notes` that had a value other than `null` keeps it, each
that was missing or `null` becomes `false`, `0`, `[]`, `""`, and every other field keeps its
value.  The records under every other key, and the other fields of the store, are unchanged. -/
theorem ensureDay_spec (data : Store) (k : String) :
    getProp (ensureDay data k).1.days k = some (ensureDay data k).2 ∧
    (getProp data.days k = none → (ensureDay data k).2 = defaultDay) ∧
    (∀ r, getProp data.days k = some r →
      ((∀ b, r.off = .val b → (ensureDay data k).2.off = .val b) ∧
       (r.off = .absent ∨ r.off = .null → (ensureDay data k).2.off = .val false)) ∧
      ((∀ n, r.pushSets = .val n → (ensureDay data k).2.pushSets = .val n) ∧
       (r.pushSets = .absent ∨ r.pushSets = .null → (ensureDay data k).2.pushSets = .val 0)) ∧
      ((∀ hs, r.hangs = .val hs → (ensureDay data k).2.hangs = .val hs) ∧
       (r.hangs = .absent ∨ r.hangs = .null → (ensureDay data k).2.hangs = .val [])) ∧
      ((∀ t, r.notes = .val t → (ensureDay data k).2.notes = .val t) ∧
       (r.notes = .absent ∨ r.notes = .null → (ensureDay data k).2.notes = .val "")) ∧
      (ensureDay data k).2.extra = r.extra) ∧
    (∀ k', k' ≠ k → getProp (ensureDay data k).1.days k' = getProp data.days k') ∧
    (ensureDay data k).1.extra = data.extra := by
  refine ⟨ensureDay_days_same data k, ?_, ?_, fun k' h => ensureDay_days_other data k k' h, ?_⟩
  · intro h
    simp [ensureDay, h]
  · intro r h
    have hr : (ensureDay data k).2 = backfill r := by simp [ensureDay, h]
    rw [hr]
    refine ⟨⟨?_, ?_⟩, ⟨?_, ?_⟩, ⟨?_, ?_⟩, ⟨?_, ?_⟩, rfl⟩
    · intro b hb
      simp [backfill, hb, Field.nullishAssign]
    · rintro (hb | hb) <;> simp [backfill, hb, Field.nullishAssign]
    · intro b hb
      simp [backfill, hb, Field.nullishAssign]
    · rintro (hb | hb) <;> simp [backfill, hb, Field.nullishAssign]
    · intro b hb
      simp [backfill, hb, Field.nullishAssign]
    · rintro (hb | hb) <;> simp [backfill, hb, Field.nullishAssign]
    · intro b hb
      simp [backfill, hb, Field.nullishAssign]
    · rintro (hb | hb) <;> simp [backfill, hb, Field.nullishAssign]
  · unfold ensureDay
    cases getProp data.days k <;> rfl

/-- Witness of `ensureDay_spec` on the store `nullOffStore`: the record under 2026-02-01 keeps
`pushSets = 3` and the field `color`, gets `off = false`, and 2026-02-10 is unchanged. -/
theorem ensureDay_spec_witness :
    (ensureDay nullOffStore "2026-02-01").2.pushSets = .val 3 ∧
      (ensureDay nullOffStore "2026-02-01").2.off = .val false ∧
      (ensureDay nullOffStore "2026-02-01").2.extra = nullOffDay.extra ∧
      getProp (ensureDay nullOffStore "2026-02-01").1.days "2026-02-10"
        = getProp nullOffStore.days "2026-02-10" :=
  have h := ensureDay_spec nullOffStore "2026-02-01"
  have hr := h.2.2.1 nullOffDay rfl
  ⟨hr.2.1.1 3 rfl, hr.1.2 (Or.inr rfl), hr.2.2.2.2, h.2.2.2.1 "2026-02-10" (by decide)⟩

/-! ## C5: `loadData` -/

/-- C5 as stated fails.  For the stored text `{"days":0}` the parsed value has a `days` field,
yet the result is not the parsed value: `days` was replaced by `{}`.  For the stored text `5`
the result is the number 5, which has no `days` field. -/
theorem loadData_not_parsed_value :
    (sampleParse "\x7b\"days\":0\x7d" = .ok (.obj [("days", .num 0)]) ∧
      getProp [("days", JVal.num 0)] "days" = some (.num 0) ∧
      loadData sampleParse (some "\x7b\"days\":0\x7d") ≠ .obj [("days", .num 0)]) ∧
    (sampleParse "5" = .ok (.num 5) ∧
      loadData sampleParse (some "5") = .num 5 ∧
      readDays (loadData sampleParse (some "5")) = some none) := by
  refine ⟨⟨rfl, rfl, ?_⟩, rfl, ?_, ?_⟩
  · have h : loadData sampleParse (some "\x7b\"days\":0\x7d") = .obj [("days", .obj [])] := by
      simp [loadData, sampleParse, readDays, getProp, truthyOpt, JVal.truthy, writeDays, setProp]
    rw [h]
    simp
  · simp [loadData, sampleParse, readDays, truthyOpt, writeDays]
  · simp [loadData, sampleParse, readDays, truthyOpt, writeDays]

/-- C5, amended.  `loadData` is total (it never raises).  It returns `{days: {}}` when the
stored content is absent, empty, not valid JSON, or parses to `null`.  When the content parses
to an object, the result is that object, with `days` set to `{}` when `days` was missing or
falsy (`null`, `false`, `0`, `""`); an array gets a `days` property in the same way.  In all
these cases the result has a truthy `days` field.  (What happens for a bare number, string or
boolean is not part of this statement.) -/
theorem loadData_spec (parse : String → Except String JVal) (raw : Option String) :
    (raw = none ∨ raw = some "" → loadData parse raw = emptyStoreJ) ∧
    (∀ text msg, raw = some text → parse text = .error msg →
      loadData parse raw = emptyStoreJ) ∧
    (∀ text, raw = some text → parse text = .ok .null → loadData parse raw = emptyStoreJ) ∧
    (∀ text fields, raw = some text → text ≠ "" → parse text = .ok (.obj fields) →
      loadData parse raw =
        if truthyOpt (getProp fields "days") then .obj fields
        else .obj (setProp fields "days" (.obj []))) ∧
    (∀ text items props, raw = some text → text ≠ "" → parse text = .ok (.arr items props) →
      loadData parse raw =
        if truthyOpt (getProp props "days") then .arr items props
        else .arr items (setProp props "days" (.obj []))) ∧
    ((∀ text v, raw = some text → parse text = .ok v → v.isPrimitive = false) →
      truthyOpt (daysField (loadData parse raw)) = true) := by
  refine ⟨?_, ?_, ?_, ?_, ?_, ?_⟩
  · rintro (h | h) <;> simp [h, loadData]
  · intro text msg h1 h2
    simp [h1, loadData, h2]
  · intro text h1 h2
    simp [h1, loadData, h2, readDays]
  · intro text fields h1 h0 h2
    simp only [h1, loadData, h0, if_false, h2, readDays]
    cases truthyOpt (getProp fields "days") <;> simp [writeDays]
  · intro text items props h1 h0 h2
    simp only [h1, loadData, h0, if_false, h2, readDays]
    cases truthyOpt (getProp props "days") <;> simp [writeDays]
  · intro hprim
    have hempty : truthyOpt (daysField emptyStoreJ) = true := by
      simp [emptyStoreJ, daysField, readDays, getProp, truthyOpt, JVal.truthy]
    cases raw with
    | none => simpa [loadData] using hempty
    | some text =>
      by_cases h0 : text = ""
      · simpa [loadData, h0] using hempty
      · cases hp : parse text with
        | error msg => simpa [loadData, h0, hp] using hempty
        | ok v =>
          have hv := hprim text v rfl hp
          cases v with
          | null => simpa [loadData, h0, hp, readDays] using hempty
          | bool b => simp [JVal.isPrimitive] at hv
          | num q => simp [JVal.isPrimitive] at hv
          | str t => simp [JVal.isPrimitive] at hv
          | arr items props =>
            simp only [loadData, h0, if_false, hp, readDays]
            cases ht : truthyOpt (getProp props "days")
            · simp [writeDays, daysField, readDays, getProp_setProp_same, truthyOpt,
                JVal.truthy]
            · simpa [daysField, readDays] using ht
          | obj fields =>
            simp only [loadData, h0, if_false, hp, readDays]
            cases ht : truthyOpt (getProp fields "days")
            · simp [writeDays, daysField, readDays, getProp_setProp_same, truthyOpt,
                JVal.truthy]
            · simpa [daysField, readDays] using ht

/-- Witness of `loadData_spec`: the stored text `{"days":0}` loads as `{days: {}}`. -/
theorem loadData_spec_witness :
    loadData sampleParse (some "\x7b\"days\":0\x7d")
      = (if truthyOpt (getProp [("days", JVal.num 0)] "days") then .obj [("days", .num 0)]
         else .obj (setProp [("days", JVal.num 0)] "days" (.obj []))) :=
  (loadData_spec sampleParse (some "\x7b\"days\":0\x7d")).2.2.2.1
    "\x7b\"days\":0\x7d" [("days", .num 0)] rfl (by decide) rfl

/-! ## C4: import -/

theorem daysField_writeDays (data days d : JVal) (h : daysField data = some days) :
    daysField (writeDays data d) = some d := by
  cases data with
  | null => simp [daysField, readDays] at h
  | bool b => simp [daysField, readDays] at h
  | num q => simp [daysField, readDays] at h
  | str t => simp [daysField, readDays] at h
  | arr items props => simp [daysField, readDays, writeDays, getProp_setProp_same]
  | obj fields => simp [daysField, readDays, writeDays, getProp_setProp_same]

theorem getKey_setKey_other (v x : JVal) (k k' : String) (h : k' ≠ k) :
    (v.setKey k x).getKey k' = v.getKey k' := by
  cases v with
  | null => rfl
  | bool b => rfl
  | num q => rfl
  | str t => rfl
  | arr items props => exact getProp_setProp_other props k k' x h
  | obj fields => exact getProp_setProp_other fields k k' x h

theorem getKey_setKey_same (v x : JVal) (k : String) (h : v.typeofObject = true)
    (hn : v.truthy = true) : (v.setKey k x).getKey k = some x := by
  cases v with
  | null => simp [JVal.truthy] at hn
  | bool b => simp [JVal.typeofObject] at h
  | num q => simp [JVal.typeofObject] at h
  | str t => simp [JVal.typeofObject] at h
  | arr items props => exact getProp_setProp_same props k x
  | obj fields => exact getProp_setProp_same fields k x

theorem setKey_of_primitive (v x : JVal) (k : String) (h : v.typeofObject = false) :
    v.setKey k x = v ∧ v.getKey k = none := by
  cases v with
  | null => simp [JVal.typeofObject] at h
  | bool b => exact ⟨rfl, rfl⟩
  | num q => exact ⟨rfl, rfl⟩
  | str t => exact ⟨rfl, rfl⟩
  | arr items props => simp [JVal.typeofObject] at h
  | obj fields => simp [JVal.typeofObject] at h

theorem setProp_of_getProp {α : Type} (o : List (String × α)) (k : String) (v : α)
    (h : getProp o k = some v) : setProp o k v = o := by
  induction o with
  | nil => simp [getProp] at h
  | cons e rest ih =>
    obtain ⟨k0, v0⟩ := e
    by_cases h0 : k0 = k
    · subst h0
      simp only [getProp, if_true, Option.some.injEq] at h
      simp [setProp, h]
    · simp only [getProp, h0, if_false] at h
      simp [setProp, h0, ih h]

theorem writeDays_same (data days : JVal) (h : daysField data = some days) :
    writeDays data days = data := by
  cases data with
  | null => rfl
  | bool b => rfl
  | num q => rfl
  | str t => rfl
  | arr items props =>
    have h1 : getProp props "days" = some days := by simpa [daysField, readDays] using h
    simp [writeDays, setProp_of_getProp _ _ _ h1]
  | obj fields =>
    have h1 : getProp fields "days" = some days := by simpa [daysField, readDays] using h
    simp [writeDays, setProp_of_getProp _ _ _ h1]

theorem ensureDayRaw_eq (data days : JVal) (sel : String) (h : daysField data = some days)
    (ht : days.truthy = true) :
    ensureDayRaw data sel =
      some (writeDays data (days.setKey sel (ensuredRecord (days.getKey sel))),
        (days.setKey sel (ensuredRecord (days.getKey sel))).getKey sel) := by
  have hcase : (match days.getKey sel with
      | none => days.setKey sel defaultDayJ
      | some r =>
        if r.truthy then days.setKey sel (backfillRaw r) else days.setKey sel defaultDayJ)
      = days.setKey sel (ensuredRecord (days.getKey sel)) := by
    cases days.getKey sel with
    | none => rfl
    | some r =>
      simp only [ensuredRecord]
      split_ifs <;> rfl
  unfold ensureDayRaw
  rw [h]
  cases days with
  | null => simp [JVal.truthy] at ht
  | bool b => simp only [hcase]
  | num q => simp only [hcase]
  | str t => simp only [hcase]
  | arr items props => simp only [hcase]
  | obj fields => simp only [hcase]

theorem entryOf_writeDays (data days d : JVal) (k : String) (h : daysField data = some days) :
    entryOf (writeDays data d) k = d.getKey k := by
  simp only [entryOf, daysField_writeDays data days d h]

theorem importFailed_invalid : importFailed "Invalid format" = "Import failed: Invalid format" := by
  decide

/-- C4 as stated fails, in three ways.  The file text `{"days":0}` is valid JSON, its value is
an object and has a `days` field, yet the import is refused and the stores stay what they were.
The file text `{"days":5}` is accepted, the parsed value replaces the store and the persisted
store, and then the import is reported as failed, because the re-render raises.  The file text
`{"days":{}}` is accepted and reported as complete, yet the in-memory store is not the parsed
value at the end: the re-render has added the record of the selected date to it, which the
persisted store does not have. -/
theorem fileImportChange_not_as_claimed :
    (sampleParse "\x7b\"days\":0\x7d" = .ok (.obj [("days", .num 0)]) ∧
      getProp [("days", JVal.num 0)] "days" = some (.num 0) ∧
      (fileImportChange samplePage (some (.ok "\x7b\"days\":0\x7d")) sampleRawApp).2
        = some "Import failed: Invalid format" ∧
      (fileImportChange samplePage (some (.ok "\x7b\"days\":0\x7d")) sampleRawApp).1.data
        ≠ .obj [("days", .num 0)]) ∧
    (sampleParse "\x7b\"days\":5\x7d" = .ok (.obj [("days", .num 5)]) ∧
      (fileImportChange samplePage (some (.ok "\x7b\"days\":5\x7d")) sampleRawApp).2
        = some "Import failed: Cannot read properties of undefined (reading 'off')" ∧
      (fileImportChange samplePage (some (.ok "\x7b\"days\":5\x7d")) sampleRawApp).1.data
        = .obj [("days", .num 5)] ∧
      (fileImportChange samplePage (some (.ok "\x7b\"days\":5\x7d")) sampleRawApp).1.storage
        = some (.obj [("days", .num 5)]) ∧
      sampleRawApp.storage ≠ some (.obj [("days", .num 5)])) ∧
    (sampleParse "\x7b\"days\":\x7b\x7d\x7d" = .ok (.obj [("days", .obj [])]) ∧
      (fileImportChange samplePage (some (.ok "\x7b\"days\":\x7b\x7d\x7d")) sampleRawApp).2
        = some "Import complete." ∧
      (fileImportChange samplePage (some (.ok "\x7b\"days\":\x7b\x7d\x7d")) sampleRawApp).1.storage
        = some (.obj [("days", .obj [])]) ∧
      (fileImportChange samplePage (some (.ok "\x7b\"days\":\x7b\x7d\x7d")) sampleRawApp).1.data
        = .obj [("days", .obj [("2026-02-05", defaultDayJ)])] ∧
      (fileImportChange samplePage (some (.ok "\x7b\"days\":\x7b\x7d\x7d")) sampleRawApp).1.data
        ≠ .obj [("days", .obj [])]) := by
  have h0 : fileImportChange samplePage (some (.ok "\x7b\"days\":0\x7d")) sampleRawApp
      = (sampleRawApp, some "Import failed: Invalid format") := rfl
  have h5 : fileImportChange samplePage (some (.ok "\x7b\"days\":5\x7d")) sampleRawApp
      = ({ data := .obj [("days", .num 5)], storage := some (.obj [("days", .num 5)]),
           selectedDateStr := some "2026-02-05" },
         some "Import failed: Cannot read properties of undefined (reading 'off')") := rfl
  have he : fileImportChange samplePage (some (.ok "\x7b\"days\":\x7b\x7d\x7d")) sampleRawApp
      = ({ data := .obj [("days", .obj [("2026-02-05", defaultDayJ)])],
           storage := some (.obj [("days", .obj [])]),
           selectedDateStr := some "2026-02-05" },
         some "Import complete.") := rfl
  refine ⟨⟨rfl, rfl, ?_, ?_⟩, ⟨rfl, ?_, ?_, ?_, ?_⟩, ⟨rfl, ?_, ?_, ?_, ?_⟩⟩
  · rw [h0]
  · rw [h0]
    simp [sampleRawApp]
  · rw [h5]
  · rw [h5]
  · rw [h5]
  · simp [sampleRawApp]
  · rw [he]
  · rw [he]
  · rw [he]
  · rw [he]
    simp

/-- C4, amended.  If the file text is not valid JSON, the import fails with the parser's
message (or "Unknown error") and the store and the persisted store are exactly what they were.
The same holds, with the message "Invalid format", if the parsed value is falsy, is not of type
object, or has a `days` field that is missing or falsy (`null`, `false`, `0`, `""`).
Otherwise the parsed value is persisted and becomes the store, and the re-render follows.  The
alert is "Import complete." or, when the re-render raised, "Import failed: " with the message of
the exception, the stores having been replaced all the same.  If `renderCalendar` raises, or no
date is selected, the store is the parsed value.  If not, `renderEditor` runs `ensureDay` on the
selected date: when `days` is an object (or array), the store then holds under that date the
record that was there, back-filled, or the all-default record when there was none or a falsy
one, and the import is complete unless writing that record into the editor raises; when `days`
is a number, string or `true`, the store stays the parsed value and the import is reported as
failed.  In every case the records under the dates that are not selected are those of the parsed
value. -/
theorem fileImportChange_spec (page : Page) (text : String) (a : RawApp) :
    (∀ msg, page.parse text = .error msg →
      fileImportChange page (some (.ok text)) a = (a, some (importFailed msg))) ∧
    (∀ obj, page.parse text = .ok obj →
      (obj.truthy = false ∨ obj.typeofObject = false ∨ truthyOpt (daysField obj) = false) →
      fileImportChange page (some (.ok text)) a = (a, some "Import failed: Invalid format")) ∧
    (∀ obj days, page.parse text = .ok obj → obj.truthy = true → obj.typeofObject = true →
      daysField obj = some days → days.truthy = true →
      (fileImportChange page (some (.ok text)) a).1.storage = some obj ∧
      (fileImportChange page (some (.ok text)) a).1.selectedDateStr = a.selectedDateStr ∧
      ((fileImportChange page (some (.ok text)) a).2 = some "Import complete." ∨
        ∃ msg, (fileImportChange page (some (.ok text)) a).2 = some (importFailed msg)) ∧
      (∀ msg, page.calendarError obj = some msg →
        (fileImportChange page (some (.ok text)) a).1.data = obj ∧
        (fileImportChange page (some (.ok text)) a).2 = some (importFailed msg)) ∧
      (a.selectedDateStr = none ∨ a.selectedDateStr = some "" → page.calendarError obj = none →
        (fileImportChange page (some (.ok text)) a).1.data = obj ∧
        (fileImportChange page (some (.ok text)) a).2 = some "Import complete.") ∧
      (∀ sel, a.selectedDateStr = some sel → sel ≠ "" → page.calendarError obj = none →
        (days.typeofObject = true →
          entryOf (fileImportChange page (some (.ok text)) a).1.data sel
            = some (ensuredRecord (days.getKey sel)) ∧
          (fileImportChange page (some (.ok text)) a).2
            = some (match page.editorError (ensuredRecord (days.getKey sel)) with
                | some msg => importFailed msg
                | none => "Import complete.")) ∧
        (days.typeofObject = false →
          (fileImportChange page (some (.ok text)) a).1.data = obj ∧
          (fileImportChange page (some (.ok text)) a).2
            = some (importFailed (page.readError "off")))) ∧
      (∀ k, a.selectedDateStr ≠ some k →
        entryOf (fileImportChange page (some (.ok text)) a).1.data k = entryOf obj k)) := by
  refine ⟨?_, ?_, ?_⟩
  · intro msg h
    simp [fileImportChange, h]
  · intro obj h hbad
    have hc : (!obj.truthy || !obj.typeofObject || !truthyOpt (daysField obj)) = true := by
      rcases hbad with hb | hb | hb <;> simp [hb]
    simp only [fileImportChange, h, hc, if_true, importFailed_invalid]
  · intro obj days h h1 h2 h3 h4
    have hc : (!obj.truthy || !obj.typeofObject || !truthyOpt (daysField obj)) = false := by
      simp [h1, h2, h3, truthyOpt, h4]
    have hfile : fileImportChange page (some (.ok text)) a =
        (match page.calendarError obj with
          | some msg =>
            ({ a with data := obj, storage := some obj }, some (importFailed msg))
          | none =>
            match renderEditorRaw page { a with data := obj, storage := some obj } with
            | (a2, some msg) => (a2, some (importFailed msg))
            | (a2, none) => (a2, some "Import complete.")) := by
      simp only [fileImportChange, h, hc]
      rfl
    rw [hfile]
    cases hcal : page.calendarError obj with
    | some m =>
      refine ⟨rfl, rfl, Or.inr ⟨m, rfl⟩, ?_, ?_, ?_, ?_⟩
      · intro msg hm
        cases hm
        exact ⟨rfl, rfl⟩
      · intro _ hn
        cases hn
      · intro sel _ _ hn
        cases hn
      · intro k _
        rfl
    | none =>
      cases hsel : a.selectedDateStr with
      | none =>
        have hr : renderEditorRaw page { data := obj, storage := some obj, selectedDateStr := none }
            = ({ data := obj, storage := some obj, selectedDateStr := none }, none) := by
          simp [renderEditorRaw]
        rw [hr]
        refine ⟨rfl, rfl, Or.inl rfl, ?_, ?_, ?_, ?_⟩
        · intro msg hm
          cases hm
        · intro _ _
          exact ⟨rfl, rfl⟩
        · intro sel hs
          cases hs
        · intro k _
          rfl
      | some sel =>
        by_cases hempty : sel = ""
        · have hr : renderEditorRaw page { data := obj, storage := some obj, selectedDateStr := some sel }
              = ({ data := obj, storage := some obj, selectedDateStr := some sel }, none) := by
            simp [renderEditorRaw, hempty]
          rw [hr]
          refine ⟨rfl, rfl, Or.inl rfl, ?_, ?_, ?_, ?_⟩
          · intro msg hm
            cases hm
          · intro _ _
            exact ⟨rfl, rfl⟩
          · intro sel' hs hne
            simp only [Option.some.injEq] at hs
            exact absurd (hs ▸ hempty) hne
          · intro k _
            rfl
        · have hens := ensureDayRaw_eq obj days sel h3 h4
          by_cases hobj : days.typeofObject = true
          · have hget : (days.setKey sel (ensuredRecord (days.getKey sel))).getKey sel
                = some (ensuredRecord (days.getKey sel)) :=
              getKey_setKey_same _ _ _ hobj h4
            rw [hget] at hens
            have hr : renderEditorRaw page { data := obj, storage := some obj, selectedDateStr := some sel }
                = ({ data := writeDays obj (days.setKey sel (ensuredRecord (days.getKey sel)))
                     storage := some obj
                     selectedDateStr := some sel },
                    page.editorError (ensuredRecord (days.getKey sel))) := by
              simp [renderEditorRaw, hempty, hens]
            rw [hr]
            cases hed : page.editorError (ensuredRecord (days.getKey sel)) with
            | some m =>
              refine ⟨rfl, rfl, Or.inr ⟨m, rfl⟩, ?_, ?_, ?_, ?_⟩
              · intro msg hm
                cases hm
              · rintro (hs | hs) _
                · cases hs
                · simp only [Option.some.injEq] at hs
                  exact absurd hs hempty
              · intro sel' hs _ _
                simp only [Option.some.injEq] at hs
                subst hs
                refine ⟨fun _ => ⟨?_, ?_⟩, fun hp => ?_⟩
                · rw [entryOf_writeDays obj days _ _ h3]
                  exact hget
                · rw [hed]
                · rw [hobj] at hp
                  cases hp
              · intro k hk
                have hk' : k ≠ sel := fun e => hk (by rw [e])
                rw [entryOf_writeDays obj days _ _ h3, getKey_setKey_other _ _ _ _ hk']
                simp [entryOf, h3]
            | none =>
              refine ⟨rfl, rfl, Or.inl rfl, ?_, ?_, ?_, ?_⟩
              · intro msg hm
                cases hm
              · rintro (hs | hs) _
                · cases hs
                · simp only [Option.some.injEq] at hs
                  exact absurd hs hempty
              · intro sel' hs _ _
                simp only [Option.some.injEq] at hs
                subst hs
                refine ⟨fun _ => ⟨?_, ?_⟩, fun hp => ?_⟩
                · rw [entryOf_writeDays obj days _ _ h3]
                  exact hget
                · rw [hed]
                · rw [hobj] at hp
                  cases hp
              · intro k hk
                have hk' : k ≠ sel := fun e => hk (by rw [e])
                rw [entryOf_writeDays obj days _ _ h3, getKey_setKey_other _ _ _ _ hk']
                simp [entryOf, h3]
          · have hprim : days.typeofObject = false := by
              cases hb : days.typeofObject
              · rfl
              · exact absurd hb hobj
            obtain ⟨hset, hgetn⟩ := setKey_of_primitive days (ensuredRecord (days.getKey sel)) sel
              hprim
            rw [hset, writeDays_same obj days h3, hgetn] at hens
            have hr : renderEditorRaw page { data := obj, storage := some obj, selectedDateStr := some sel }
                = ({ data := obj, storage := some obj, selectedDateStr := some sel },
                    some (page.readError "off")) := by
              simp [renderEditorRaw, hempty, hens]
            rw [hr]
            refine ⟨rfl, rfl, Or.inr ⟨_, rfl⟩, ?_, ?_, ?_, ?_⟩
            · intro msg hm
              cases hm
            · rintro (hs | hs) _
              · cases hs
              · simp only [Option.some.injEq] at hs
                exact absurd hs hempty
            · intro sel' hs _ _
              refine ⟨fun hp => ?_, fun _ => ⟨rfl, rfl⟩⟩
              rw [hprim] at hp
              cases hp
            · intro k _
              rfl

/-- Witness of `fileImportChange_spec`: the file text `{"days":{}}` is accepted with 2026-02-05
selected; the parsed value is persisted, the store gets the all-default record under
2026-02-05, and the import is reported as complete. -/
theorem fileImportChange_spec_witness :
    (fileImportChange samplePage (some (.ok "\x7b\"days\":\x7b\x7d\x7d")) sampleRawApp).1.storage
        = some (.obj [("days", .obj [])]) ∧
      entryOf
          (fileImportChange samplePage (some (.ok "\x7b\"days\":\x7b\x7d\x7d")) sampleRawApp).1.data
          "2026-02-05" = some defaultDayJ ∧
      (fileImportChange samplePage (some (.ok "\x7b\"days\":\x7b\x7d\x7d")) sampleRawApp).2
        = some "Import complete." :=
  have h := (fileImportChange_spec samplePage "\x7b\"days\":\x7b\x7d\x7d" sampleRawApp).2.2
    (.obj [("days", .obj [])]) (.obj []) rfl rfl rfl rfl rfl
  have hs := (h.2.2.2.2.2.1 "2026-02-05" rfl (by decide) rfl).1 rfl
  ⟨h.1, hs.1, hs.2⟩

/-! ## C6: clearing a day -/

theorem dayToLine_defaultDay (limit : Nat) : dayToLine limit defaultDay = some "—" := by
  have h0 : ¬ limit < 0 := Nat.not_lt_zero _
  simp [dayToLine, defaultDay, Field.truthy, Field.orElse, repeatStr, join, h0]

theorem ensureDay_of_none (data : Store) (k : String) (h : getProp data.days k = none) :
    (ensureDay data k).2 = defaultDay := by
  simp [ensureDay, h]

theorem btnClearDayClick_eq (limit : Nat) (a : App) (d : String)
    (hsel : a.selectedDateStr = some d) (hd : d ≠ "") :
    btnClearDayClick limit true a =
      { data := (ensureDay { a.data with days := deleteProp a.data.days d } d).1
        storage := some { a.data with days := deleteProp a.data.days d }
        selectedDateStr := some d } := by
  simp [btnClearDayClick, hsel, hd, saveData, renderEditor, renderCalendar]

theorem deleteProp_of_absent {α : Type} (o : List (String × α)) (k : String)
    (h : getProp o k = none) : deleteProp o k = o := by
  induction o with
  | nil => rfl
  | cons e rest ih =>
    obtain ⟨k0, v0⟩ := e
    by_cases h0 : k0 = k
    · simp [getProp, h0] at h
    · simp only [getProp, h0, if_false] at h
      rw [deleteProp_cons, if_neg h0, ih h]

/-- C6 as stated fails, in two ways.  After the confirmed clear-day action on the selected date
2026-02-01, the in-memory mapping `data.days` has an entry under that date again.  And in
`unsavedApp`, where the store holds under 2026-02-05 a record that was not persisted, the
persisted store has no entry under 2026-02-05 before the action and has one after it. -/
theorem btnClearDayClick_not_as_claimed :
    (sampleApp.selectedDateStr = some "2026-02-01" ∧
      (getProp (btnClearDayClick sampleLimit true sampleApp).data.days "2026-02-01").isSome
        = true) ∧
    (unsavedApp.selectedDateStr = some "2026-02-01" ∧
      (∃ s0, unsavedApp.storage = some s0 ∧ getProp s0.days "2026-02-05" = none) ∧
      (∃ s, (btnClearDayClick sampleLimit true unsavedApp).storage = some s ∧
        getProp s.days "2026-02-05" = some defaultDay)) := by
  refine ⟨⟨rfl, ?_⟩, rfl, ⟨_, rfl, rfl⟩, ?_⟩
  · rw [btnClearDayClick_eq sampleLimit sampleApp "2026-02-01" rfl (by decide),
      ensureDay_days_same]
    rfl
  · rw [btnClearDayClick_eq sampleLimit unsavedApp "2026-02-01" rfl (by decide)]
    exact ⟨_, rfl, rfl⟩

/-- C6, amended.  After the confirmed clear-day action on the selected date `d` (delete, save,
re-render), the persisted store is the in-memory store of before the action without the entry
under `d`: it has no entry under `d`, and under every other key it holds what the in-memory
store held, which is what the persisted store held before whenever the two agreed before the
action (a record that was in memory only becomes persisted).  The in-memory mapping holds the
all-default record under `d`, which `renderEditor` creates again through `ensureDay` and which
is not persisted by this action, and its entries under every other key are unchanged.  When
`d` had no entry, the delete changes nothing and raises nothing; in every case the editor is
rendered again without an exception, with the line "—". -/
theorem btnClearDayClick_spec (limit : Nat) (a : App) (d : String)
    (hsel : a.selectedDateStr = some d) (hd : d ≠ "") :
    (btnClearDayClick limit true a).storage
      = some { a.data with days := deleteProp a.data.days d } ∧
    getProp (deleteProp a.data.days d) d = none ∧
    (∀ k, k ≠ d → getProp (deleteProp a.data.days d) k = getProp a.data.days k) ∧
    (∀ s0, a.storage = some s0 → (∀ k, getProp s0.days k = getProp a.data.days k) →
      ∀ k, k ≠ d → getProp (deleteProp a.data.days d) k = getProp s0.days k) ∧
    getProp (btnClearDayClick limit true a).data.days d = some defaultDay ∧
    (∀ k, k ≠ d → getProp (btnClearDayClick limit true a).data.days k = getProp a.data.days k) ∧
    (getProp a.data.days d = none → deleteProp a.data.days d = a.data.days) ∧
    (renderEditor limit
      (saveData { a with data := { a.data with days := deleteProp a.data.days d } })).2.logLine
      = some "—" := by
  rw [btnClearDayClick_eq limit a d hsel hd]
  refine ⟨rfl, getProp_deleteProp_same _ _, fun k hk => getProp_deleteProp_other _ _ _ hk,
    ?_, ?_, ?_, deleteProp_of_absent _ _, ?_⟩
  · intro s0 _ hagree k hk
    rw [getProp_deleteProp_other _ _ _ hk, hagree k]
  · have h := ensureDay_days_same { a.data with days := deleteProp a.data.days d } d
    rw [h]
    simp [ensureDay, getProp_deleteProp_same]
  · intro k hk
    have h := ensureDay_days_other { a.data with days := deleteProp a.data.days d } d k hk
    simp only at h ⊢
    rw [h]
    exact getProp_deleteProp_other _ _ _ hk
  · have hnone : getProp ({ a.data with days := deleteProp a.data.days d } : Store).days d
        = none := getProp_deleteProp_same _ _
    simp only [renderEditor, saveData, hsel, hd, if_false]
    rw [ensureDay_of_none _ _ hnone]
    exact dayToLine_defaultDay limit

/-- Witness of `btnClearDayClick_spec` on `sampleApp`, where 2026-02-01 is selected and the
persisted store agrees with the store: afterwards the persisted store has no entry under
2026-02-01 and the entry of before under 2026-02-10, and the store has the all-default record
under 2026-02-01. -/
theorem btnClearDayClick_spec_witness :
    (btnClearDayClick sampleLimit true sampleApp).storage
        = some { sampleApp.data with days := deleteProp sampleApp.data.days "2026-02-01" } ∧
      getProp (deleteProp sampleApp.data.days "2026-02-01") "2026-02-01" = none ∧
      getProp (deleteProp sampleApp.data.days "2026-02-01") "2026-02-10"
        = getProp nullOffStore.days "2026-02-10" ∧
      getProp (btnClearDayClick sampleLimit true sampleApp).data.days "2026-02-01"
        = some defaultDay :=
  have h := btnClearDayClick_spec sampleLimit sampleApp "2026-02-01" rfl (by decide)
  ⟨h.1, h.2.1, h.2.2.2.1 nullOffStore rfl (fun _ => rfl) "2026-02-10" (by decide), h.2.2.2.2.1⟩

/-! ## C7: committing the editor -/

theorem backfill_off_truthy (r : Day) : (backfill r).off.truthy = r.off.truthy := by
  cases h : r.off <;> simp [backfill, h, Field.nullishAssign, Field.truthy]

theorem backfill_hangs_orElse (r : Day) : (backfill r).hangs.orElse [] = r.hangs.orElse [] := by
  cases h : r.hangs <;> simp [backfill, h, Field.nullishAssign, Field.orElse]

theorem ensureDay_off (data : Store) (k : String) :
    (ensureDay data k).2.off.truthy = offOf (getProp data.days k) := by
  unfold ensureDay
  cases h : getProp data.days k with
  | none => simp [offOf, defaultDay, Field.truthy]
  | some r => simp [offOf, backfill_off_truthy]

theorem ensureDay_hangs (data : Store) (k : String) :
    (ensureDay data k).2.hangs.orElse [] = hangsOf (getProp data.days k) := by
  unfold ensureDay
  cases h : getProp data.days k with
  | none => simp [hangsOf, defaultDay, Field.orElse]
  | some r => simp [hangsOf, backfill_hangs_orElse]

theorem ensureDay_of_some (data : Store) (k : String) (r : Day)
    (h : getProp data.days k = some r) : (ensureDay data k).2 = backfill r := by
  simp [ensureDay, h]

theorem commitEditorToDay_eq (x : Option ℚ) (notes : String) (a : App) (d : String)
    (hsel : a.selectedDateStr = some d) (hd : d ≠ "") :
    commitEditorToDay x notes a =
      { data :=
          { (ensureDay a.data d).1 with
            days := setProp (ensureDay a.data d).1.days d
              { (ensureDay a.data d).2 with
                pushSets := .val (max 0 (Rat.floor (inputNumber x))), notes := .val notes } }
        storage := some
          { (ensureDay a.data d).1 with
            days := setProp (ensureDay a.data d).1.days d
              { (ensureDay a.data d).2 with
                pushSets := .val (max 0 (Rat.floor (inputNumber x))), notes := .val notes } }
        selectedDateStr := some d } := by
  simp [commitEditorToDay, hsel, hd, saveData]

/-- C7. For every value of the push-up sets input (`none`: empty, `some x`: the number `x`,
negative and fractional included) and every selected date `d`, after `commitEditorToDay` the
record of `d` has `pushSets = max(0, floor(x))`, a non-negative integer (0 for the empty input);
its off flag and its list of hangs read as before (and a value they had is kept as it was); the
records of all other dates are unchanged; the result is persisted.  The live preview
(`renderEditorPreview`) shows the summary and the line of that committed record, so it derives
them from the same clamped value. -/
theorem commitEditorToDay_spec (a : App) (d : String) (x : Option ℚ) (notes : String)
    (hsel : a.selectedDateStr = some d) (hd : d ≠ "") :
    (∃ r, getProp (commitEditorToDay x notes a).data.days d = some r ∧
      r.pushSets = .val (max 0 ⌊inputNumber x⌋) ∧
      (0 : Int) ≤ max 0 ⌊inputNumber x⌋ ∧
      r.off.truthy = offOf (getProp a.data.days d) ∧
      r.hangs.orElse [] = hangsOf (getProp a.data.days d) ∧
      (∀ r0, getProp a.data.days d = some r0 →
        (∀ b, r0.off = .val b → r.off = .val b) ∧ (∀ hs, r0.hangs = .val hs → r.hangs = .val hs)) ∧
      (∀ limit, (renderEditorPreview limit x a).2
        = some (if r.off.truthy then "DAY OFF" else daySummary r, dayToLine limit r))) ∧
    (∀ k, k ≠ d →
      getProp (commitEditorToDay x notes a).data.days k = getProp a.data.days k) ∧
    (commitEditorToDay x notes a).storage = some (commitEditorToDay x notes a).data := by
  rw [commitEditorToDay_eq x notes a d hsel hd]
  refine ⟨⟨_, getProp_setProp_same _ _ _, rfl, le_max_left _ _, ensureDay_off a.data d,
    ensureDay_hangs a.data d, ?_, ?_⟩, ?_, rfl⟩
  · intro r0 h0
    rw [ensureDay_of_some a.data d r0 h0]
    constructor
    · intro b hb
      simp [backfill, hb, Field.nullishAssign]
    · intro hs hb
      simp [backfill, hb, Field.nullishAssign]
  · intro limit
    simp only [renderEditorPreview, hsel, hd, if_false]
    rfl
  · intro k hk
    simp only
    rw [getProp_setProp_other _ _ _ _ hk]
    exact ensureDay_days_other a.data d k hk

/-- Witness of `commitEditorToDay_spec` on `sampleApp` with the input value -5/2: the record of
2026-02-01 gets `pushSets = max(0, floor(-5/2))`. -/
theorem commitEditorToDay_spec_witness :
    ∃ r, getProp (commitEditorToDay (some (-5 / 2)) "" sampleApp).data.days "2026-02-01" = some r ∧
      r.pushSets = .val (max 0 ⌊inputNumber (some (-5 / 2))⌋) :=
  have h := (commitEditorToDay_spec sampleApp "2026-02-01" (some (-5 / 2)) "" rfl
    (by decide)).1
  h.elim fun r hr => ⟨r, hr.1, hr.2.1⟩

/-! ## C8: adding a hang -/

theorem ensureDay_fields_val (data : Store) (k : String) :
    ∃ b n hs t ex, (ensureDay data k).2
      = { off := .val b, pushSets := .val n, hangs := .val hs, notes := .val t, extra := ex } := by
  unfold ensureDay
  cases getProp data.days k with
  | none => exact ⟨false, 0, [], "", [], rfl⟩
  | some r =>
    obtain ⟨off, ps, hs, nt, ex⟩ := r
    cases off <;> cases ps <;> cases hs <;> cases nt <;>
      exact ⟨_, _, _, _, _, rfl⟩

theorem btnAddHangClick_eq (limit : Nat) (x : Option ℚ) (feet : Bool) (a : App) (d : String)
    (hsel : a.selectedDateStr = some d) (hd : d ≠ "") (hpos : 0 < inputNumber x) :
    getProp (btnAddHangClick limit x feet a).data.days d =
      some { (ensureDay a.data d).2 with
        hangs := .val ((ensureDay a.data d).2.hangs.orElse []
          ++ [{ sec := ⌊inputNumber x⌋, feet := feet }]) } := by
  have h1 : ¬ (inputNumber x = 0 ∨ inputNumber x ≤ 0) := by
    rintro (h | h)
    · exact absurd h (ne_of_gt hpos)
    · exact absurd hpos (not_lt.mpr h)
  simp only [btnAddHangClick, hsel, hd, if_false, h1, saveData, renderEditor, renderCalendar]
  rw [ensureDay_days_same, ensureDay_of_some _ _ _ (getProp_setProp_same _ _ _)]
  obtain ⟨b, n, hs, t, ex, he⟩ := ensureDay_fields_val a.data d
  rw [he]
  rfl

/-- C8 fails on the code at the seconds value 1/2, which is positive and so passes the guard
`!sec || sec <= 0`: the entry appended to the hangs of the selected day has `sec = 0`, which is
not a positive integer. -/
theorem btnAddHangClick_half_second_appends_zero (limit : Nat) :
    (0 : ℚ) < inputNumber (some (1 / 2)) ∧
      hangsOf (getProp sampleApp.data.days "2026-02-01") = [] ∧
      hangsOf
          (getProp (btnAddHangClick limit (some (1 / 2)) false sampleApp).data.days "2026-02-01")
        = [{ sec := 0, feet := false }] := by
  have hpos : (0 : ℚ) < inputNumber (some (1 / 2)) := by
    simp [inputNumber]
  refine ⟨hpos, rfl, ?_⟩
  rw [btnAddHangClick_eq limit (some (1 / 2)) false sampleApp "2026-02-01" rfl (by decide) hpos]
  have hf : ⌊inputNumber (some (1 / 2))⌋ = 0 := by
    simp only [inputNumber]
    norm_num [Int.floor_eq_iff]
  rw [hf]
  rfl

/-! ## C10: no record against the all-default record -/

theorem setProp_of_absent {α : Type} (o : List (String × α)) (k : String) (v : α)
    (h : getProp o k = none) : setProp o k v = o ++ [(k, v)] := by
  induction o with
  | nil => rfl
  | cons e rest ih =>
    obtain ⟨k0, v0⟩ := e
    by_cases h0 : k0 = k
    · simp [getProp, h0] at h
    · simp only [getProp, h0, if_false] at h
      simp [setProp, h0, ih h]

theorem monthStep_default (tz : TimeZone) (y m : Option Int) (c : Counters) (k : String)
    (hc : jsAdd c.pushSets 0 = c.pushSets) :
    monthStep tz y m c (k, defaultDay) = c := by
  simp only [monthStep, defaultDay, Field.orElse, Field.truthy, Bool.false_eq_true, if_false,
    List.length_nil, add_zero, hc]
  split_ifs <;> rfl

theorem monthStep_fixed (tz : TimeZone) (y m : Option Int) (c : Counters) (kv : String × Day)
    (hc : jsAdd c.pushSets 0 = c.pushSets) :
    jsAdd (monthStep tz y m c kv).pushSets 0 = (monthStep tz y m c kv).pushSets := by
  unfold monthStep
  simp only
  split_ifs
  · exact jsAdd_jsAdd_zero _ _
  · exact jsAdd_jsAdd_zero _ _
  · exact hc

theorem foldl_monthStep_fixed (tz : TimeZone) (y m : Option Int) (l : List (String × Day))
    (c : Counters) (hc : jsAdd c.pushSets 0 = c.pushSets) :
    jsAdd (l.foldl (monthStep tz y m) c).pushSets 0
      = (l.foldl (monthStep tz y m) c).pushSets := by
  induction l generalizing c with
  | nil => exact hc
  | cons kv rest ih =>
    rw [List.foldl_cons]
    exact ih _ (monthStep_fixed tz y m c kv hc)

/-- C10 as stated fails: on the empty store the calendar cell of 2026-02-01 has the empty
summary line, and once the all-default record is inserted under that date it has "—". -/
theorem calendarCell_sum_differs :
    getProp emptyApp.data.days "2026-02-01" = none ∧
      (calendarCell sampleLimit emptyApp.data "2026-02-01").2 = some "" ∧
      (calendarCell sampleLimit (insertDefault emptyApp.data "2026-02-01") "2026-02-01").2
        = some "—" ∧
      (calendarCell sampleLimit emptyApp.data "2026-02-01").2
        ≠ (calendarCell sampleLimit (insertDefault emptyApp.data "2026-02-01") "2026-02-01").2 := by
  refine ⟨rfl, ?_, ?_, ?_⟩ <;> decide

/-- C10, amended.  For every store and every date `d` with no record, inserting the all-default
record under `d` changes `monthTotals` of no month and leaves the badge text of the calendar
cell of `d` the same (empty); the summary line of that cell is the empty string without a
record and "—" with the all-default record. -/
theorem insertDefault_spec (data : Store) (d : String) (h : getProp data.days d = none) :
    (∀ tz viewDate,
      monthTotals tz (insertDefault data d) viewDate = monthTotals tz data viewDate) ∧
    (∀ limit, (calendarCell limit (insertDefault data d) d).1 = (calendarCell limit data d).1 ∧
      (calendarCell limit data d).1 = "" ∧
      (calendarCell limit data d).2 = some "" ∧
      (calendarCell limit (insertDefault data d) d).2 = some "—") := by
  have hget : getProp (insertDefault data d).days d = some defaultDay :=
    getProp_setProp_same _ _ _
  refine ⟨?_, fun limit => ⟨?_, ?_, ?_, ?_⟩⟩
  · intro tz viewDate
    have hfix := foldl_monthStep_fixed tz (getFullYear tz viewDate) (getMonth tz viewDate)
      data.days { pushSets := 0, hangCount := 0, offDays := 0 } (by decide)
    simp only [monthTotals, insertDefault, setProp_of_absent _ _ _ h, List.foldl_append,
      List.foldl_cons, List.foldl_nil, monthStep_default _ _ _ _ _ hfix]
  · simp only [calendarCell, hget, h]
    rfl
  · simp only [calendarCell, h]
    rfl
  · simp only [calendarCell, h]
    rfl
  · simp only [calendarCell, hget, cellSum]
    exact dayToLine_defaultDay limit

/-- Witness of `insertDefault_spec` on the empty store and the date 2026-02-01. -/
theorem insertDefault_spec_witness :
    (∀ tz viewDate, monthTotals tz (insertDefault emptyApp.data "2026-02-01") viewDate
        = monthTotals tz emptyApp.data viewDate) ∧
      (calendarCell sampleLimit (insertDefault emptyApp.data "2026-02-01") "2026-02-01").2
        = some "—" :=
  have h := insertDefault_spec emptyApp.data "2026-02-01" rfl
  ⟨h.1, (h.2 sampleLimit).2.2.2⟩

/-! ## Reading digits: `Number` on a string of decimal digits -/

theorem isDecimalDigit_iff (c : Char) : isDecimalDigit c = true ↔ 48 ≤ c.toNat ∧ c.toNat ≤ 57 := by
  simp [isDecimalDigit]

theorem digit_not_whiteSpace (c : Char) (h : isDecimalDigit c = true) :
    isStrWhiteSpace c = false := by
  rw [isDecimalDigit_iff] at h
  simp only [isStrWhiteSpace, Bool.or_eq_false_iff, Bool.and_eq_false_iff, decide_eq_false_iff_not]
  omega

theorem digitValue_digit (c : Char) (h : isDecimalDigit c = true) :
    digitValue c = some (c.toNat - 48) := by
  rw [isDecimalDigit_iff] at h
  simp [digitValue, h]

theorem readDigits_digits (ds : List Char) (acc : Nat)
    (h : ∀ c ∈ ds, isDecimalDigit c = true) :
    readDigits 10 acc ds = some (ds.foldl (fun n c => n * 10 + (c.toNat - 48)) acc) := by
  induction ds generalizing acc with
  | nil => rfl
  | cons c rest ih =>
    have hc := h c (List.mem_cons_self _ _)
    have hlt : c.toNat - 48 < 10 := by
      rw [isDecimalDigit_iff] at hc
      omega
    simp only [readDigits, digitValue_digit c hc, hlt, if_true, List.foldl_cons]
    exact ih _ fun x hx => h x (List.mem_cons_of_mem _ hx)

theorem dropWhile_of_head_false {p : Char → Bool} (l : List Char)
    (h : ∀ c, l.head? = some c → p c = false) : l.dropWhile p = l := by
  cases l with
  | nil => rfl
  | cons c rest => simp [List.dropWhile, h c rfl]

theorem trimWhiteSpace_digits (ds : List Char) (h : ∀ c ∈ ds, isDecimalDigit c = true) :
    trimWhiteSpace ds = ds := by
  unfold trimWhiteSpace
  rw [dropWhile_of_head_false ds, dropWhile_of_head_false ds.reverse, List.reverse_reverse]
  · intro c hc
    have : c ∈ ds.reverse := List.mem_of_mem_head? hc
    exact digit_not_whiteSpace c (h c (List.mem_reverse.mp this))
  · intro c hc
    exact digit_not_whiteSpace c (h c (List.mem_of_mem_head? hc))

theorem unsignedDecimal_digits (ds : List Char) (hne : ds ≠ [])
    (h : ∀ c ∈ ds, isDecimalDigit c = true) :
    unsignedDecimal ds
      = some ((ds.foldl (fun n c => n * 10 + (c.toNat - 48)) 0 : Nat) : ℚ) := by
  have ht : ds.takeWhile isDecimalDigit = ds := List.takeWhile_eq_self_iff.mpr h
  have hd : ds.dropWhile isDecimalDigit = [] := List.dropWhile_eq_nil_iff.mpr h
  simp only [unsignedDecimal, ht, hd, hne, false_and, if_false, List.append_nil,
    readDigits_digits ds 0 h, readExponent, List.length_nil]
  simp [scale10]

theorem strToNumber_digits (ds : List Char) (hne : ds ≠ [])
    (h : ∀ c ∈ ds, isDecimalDigit c = true) :
    strToNumber ds = some ((ds.foldl (fun n c => n * 10 + (c.toNat - 48)) 0 : Nat) : ℚ) := by
  unfold strToNumber
  rw [trimWhiteSpace_digits ds h]
  cases ds with
  | nil => exact absurd rfl hne
  | cons c t =>
    have hc := (isDecimalDigit_iff c).mp (h c (List.mem_cons_self _ _))
    have h43 : ¬ c.toNat = 43 := by omega
    have h45 : ¬ c.toNat = 45 := by omega
    simp only [h43, h45, if_false]
    cases t with
    | nil => exact unsignedDecimal_digits _ hne h
    | cons p ds =>
      have hp := (isDecimalDigit_iff p).mp
        (h p (List.mem_cons_of_mem _ (List.mem_cons_self _ _)))
      have hx : ¬ (c.toNat = 48 ∧ (p.toNat = 120 ∨ p.toNat = 88)) := by omega
      have ho : ¬ (c.toNat = 48 ∧ (p.toNat = 111 ∨ p.toNat = 79)) := by omega
      have hb : ¬ (c.toNat = 48 ∧ (p.toNat = 98 ∨ p.toNat = 66)) := by omega
      simp only [hx, ho, hb, if_false]
      exact unsignedDecimal_digits _ hne h

/-! ## The calendar: `yearFromDay` is the year of ECMAScript -/

theorem dayFromYear_succ (y : Int) : dayFromYear (y + 1) = dayFromYear y + daysInYear y := by
  unfold dayFromYear daysInYear
  split_ifs <;> omega

theorem dayFromYear_bounds (y : Int) :
    146097 * (y - 1970) - 506 ≤ 400 * dayFromYear y ∧
      400 * dayFromYear y ≤ 146097 * (y - 1970) + 589 := by
  unfold dayFromYear
  omega

/-- The year computed by `yearFromDay` is the one that contains the day. -/
theorem yearFromDay_spec (n : Int) :
    dayFromYear (yearFromDay n) ≤ n ∧ n < dayFromYear (yearFromDay n + 1) := by
  unfold yearFromDay
  simp only
  generalize hy : 1970 + (400 * n) / 146097 = y
  have b0 := dayFromYear_bounds (y - 1)
  have b1 := dayFromYear_bounds y
  have b2 := dayFromYear_bounds (y + 1)
  have b3 := dayFromYear_bounds (y + 1 + 1)
  split_ifs with h1 h2
  · exact ⟨h1, by omega⟩
  · exact ⟨h2, by omega⟩
  · refine ⟨by omega, ?_⟩
    rw [show y - 1 + 1 = y by ring]
    omega

theorem dayFromYear_mono {a b : Int} (h : a ≤ b) : dayFromYear a ≤ dayFromYear b := by
  unfold dayFromYear
  omega

theorem yearFromDay_unique (n y : Int) (h1 : dayFromYear y ≤ n)
    (h2 : n < dayFromYear (y + 1)) : yearFromDay n = y := by
  have hs := yearFromDay_spec n
  by_contra hne
  rcases lt_or_gt_of_ne hne with h | h
  · have := dayFromYear_mono (show yearFromDay n + 1 ≤ y by omega)
    omega
  · have := dayFromYear_mono (show y + 1 ≤ yearFromDay n by omega)
    omega

/-! ## `parseISO` on keys of the form `dddd-dd-dd` -/

theorem truncQ_intCast (n : Int) : truncQ (n : ℚ) = n := by
  unfold truncQ
  simp only [Rat.num_intCast, Rat.den_intCast, Nat.cast_one, Int.ediv_one]
  split_ifs <;> omega

theorem makeFullYear_natCast (y : Nat) :
    makeFullYear ((y : Nat) : ℚ) = ((if y ≤ 99 then 1900 + (y : Int) else (y : Int) : Int) : ℚ) := by
  have h : ((y : Nat) : ℚ) = ((y : Int) : ℚ) := by push_cast; rfl
  unfold makeFullYear
  simp only [h, truncQ_intCast]
  by_cases hy : y ≤ 99
  · have h1 : (0 : Int) ≤ (y : Int) ∧ (y : Int) ≤ 99 := by omega
    simp [h1, hy]
  · have h1 : ¬ ((0 : Int) ≤ (y : Int) ∧ (y : Int) ≤ 99) := by omega
    simp [h1, hy]

theorem parseISO_isoKey (tz : TimeZone) (k : String) (y m d : Nat)
    (h : isoKeyFields k = some (y, m, d)) :
    parseISO tz k
      = timeClip (tz.utcOf
          (civilDay (if y ≤ 99 then 1900 + (y : Int) else (y : Int)) ((m : Int) - 1) d
            * msPerDay)) := by
  unfold isoKeyFields at h
  split at h
  next y1 y2 y3 y4 s1 m1 m2 s2 d1 d2 hk =>
    split at h
    next hc =>
      obtain ⟨hdig, hs1, hs2⟩ := hc
      simp only [List.mem_cons, List.mem_singleton, forall_eq_or_imp, forall_eq,
        List.not_mem_nil, false_implies, implies_true, and_true] at hdig
      obtain ⟨h1, h2, h3, h4, h5, h6, h7, h8⟩ := hdig
      have n1 := (isDecimalDigit_iff y1).mp h1
      have n2 := (isDecimalDigit_iff y2).mp h2
      have n3 := (isDecimalDigit_iff y3).mp h3
      have n4 := (isDecimalDigit_iff y4).mp h4
      have n5 := (isDecimalDigit_iff m1).mp h5
      have n6 := (isDecimalDigit_iff m2).mp h6
      have n7 := (isDecimalDigit_iff d1).mp h7
      have n8 := (isDecimalDigit_iff d2).mp h8
      have e1 : ¬ y1.toNat = 45 := by omega
      have e2 : ¬ y2.toNat = 45 := by omega
      have e3 : ¬ y3.toNat = 45 := by omega
      have e4 : ¬ y4.toNat = 45 := by omega
      have e5 : ¬ m1.toNat = 45 := by omega
      have e6 : ¬ m2.toNat = 45 := by omega
      have e7 : ¬ d1.toNat = 45 := by omega
      have e8 : ¬ d2.toNat = 45 := by omega
      have hsplit : splitDash k.data = [[y1, y2, y3, y4], [m1, m2], [d1, d2]] := by
        rw [hk]
        simp [splitDash, e1, e2, e3, e4, e5, e6, e7, e8, hs1, hs2]
      have hy : strToNumber [y1, y2, y3, y4] = some ((digitsNat [y1, y2, y3, y4] : Nat) : ℚ) :=
        strToNumber_digits _ (by simp) (by simp [h1, h2, h3, h4])
      have hm : strToNumber [m1, m2] = some ((digitsNat [m1, m2] : Nat) : ℚ) :=
        strToNumber_digits _ (by simp) (by simp [h5, h6])
      have hd : strToNumber [d1, d2] = some ((digitsNat [d1, d2] : Nat) : ℚ) :=
        strToNumber_digits _ (by simp) (by simp [h7, h8])
      simp only [Option.some.injEq, Prod.mk.injEq] at h
      obtain ⟨hy', hm', hd'⟩ := h
      rw [hy'] at hy
      rw [hm'] at hm
      rw [hd'] at hd
      have hm1 : ((m : Nat) : ℚ) - 1 = (((m : Int) - 1 : Int) : ℚ) := by push_cast; rfl
      have hd1 : ((d : Nat) : ℚ) = ((d : Int) : ℚ) := by push_cast; rfl
      have hp : parseISO tz k
          = newDate tz (some (y : ℚ)) (some ((m : ℚ) - 1)) (some (d : ℚ)) := by
        simp [parseISO, hsplit, hy, hm, hd]
      rw [hp]
      simp only [newDate, makeDay]
      rw [makeFullYear_natCast, hm1, hd1, truncQ_intCast, truncQ_intCast, truncQ_intCast]
    next => exact absurd h (by simp)
  next => exact absurd h (by simp)

/-! ## Valid dates come back from the calendar arithmetic -/

theorem civilDay_eq (y m d : Nat) (hm1 : 1 ≤ m) (hm2 : m ≤ 12) :
    civilDay y ((m : Int) - 1) d
      = dayFromYear y + daysBeforeMonth y ((m : Int) - 1) + (d : Int) - 1 := by
  have hq : ((m : Int) - 1) / 12 = 0 := by omega
  have hr : ((m : Int) - 1) % 12 = (m : Int) - 1 := by omega
  unfold civilDay
  rw [hq, hr, add_zero]


theorem month_cases (m : Nat) (hm1 : 1 ≤ m) (hm2 : m ≤ 12) :
    m = 1 ∨ m = 2 ∨ m = 3 ∨ m = 4 ∨ m = 5 ∨ m = 6 ∨ m = 7 ∨ m = 8 ∨ m = 9 ∨ m = 10 ∨
      m = 11 ∨ m = 12 := by
  omega

theorem inLeapYear_cases (y : Int) :
    (inLeapYear y = 1 ∧ daysInYear y = 366 ∧ (y % 4 = 0 ∧ (y % 100 ≠ 0 ∨ y % 400 = 0))) ∨
      (inLeapYear y = 0 ∧ daysInYear y = 365 ∧ ¬ (y % 4 = 0 ∧ (y % 100 ≠ 0 ∨ y % 400 = 0))) := by
  unfold inLeapYear daysInYear
  split_ifs <;> omega

theorem daysInMonthOf_feb (y : Nat) : (daysInMonthOf y 2 : Int) = 28 + inLeapYear y := by
  have h : daysInMonthOf y 2 = if y % 4 = 0 ∧ (y % 100 ≠ 0 ∨ y % 400 = 0) then 29 else 28 := by
    simp [daysInMonthOf]
  rw [h]
  rcases inLeapYear_cases y with g | g <;> split_ifs <;> omega

/-- Offset of the first day of month `m` and length of the month, for `m` in 1..12. -/
theorem month_table (y m : Nat) (hm1 : 1 ≤ m) (hm2 : m ≤ 12) :
    ∃ b n : Int, daysBeforeMonth y ((m : Int) - 1) = b ∧ (daysInMonthOf y m : Int) = n ∧
      ((m = 1 ∧ b = 0 ∧ n = 31) ∨ (m = 2 ∧ b = 31 ∧ n = 28 + inLeapYear y) ∨
       (m = 3 ∧ b = 59 + inLeapYear y ∧ n = 31) ∨ (m = 4 ∧ b = 90 + inLeapYear y ∧ n = 30) ∨
       (m = 5 ∧ b = 120 + inLeapYear y ∧ n = 31) ∨ (m = 6 ∧ b = 151 + inLeapYear y ∧ n = 30) ∨
       (m = 7 ∧ b = 181 + inLeapYear y ∧ n = 31) ∨ (m = 8 ∧ b = 212 + inLeapYear y ∧ n = 31) ∨
       (m = 9 ∧ b = 243 + inLeapYear y ∧ n = 30) ∨ (m = 10 ∧ b = 273 + inLeapYear y ∧ n = 31) ∨
       (m = 11 ∧ b = 304 + inLeapYear y ∧ n = 30) ∨
       (m = 12 ∧ b = 334 + inLeapYear y ∧ n = 31)) := by
  refine ⟨_, _, rfl, rfl, ?_⟩
  rcases month_cases m hm1 hm2 with h | h | h | h | h | h | h | h | h | h | h | h <;> subst h
  · exact Or.inl ⟨rfl, by simp [daysBeforeMonth], by simp [daysInMonthOf]⟩
  · exact Or.inr (Or.inl ⟨rfl, by simp [daysBeforeMonth], daysInMonthOf_feb y⟩)
  · exact Or.inr (Or.inr (Or.inl ⟨rfl, by simp [daysBeforeMonth], by simp [daysInMonthOf]⟩))
  · exact Or.inr (Or.inr (Or.inr (Or.inl
      ⟨rfl, by simp [daysBeforeMonth], by simp [daysInMonthOf]⟩)))
  · exact Or.inr (Or.inr (Or.inr (Or.inr (Or.inl
      ⟨rfl, by simp [daysBeforeMonth], by simp [daysInMonthOf]⟩))))
  · exact Or.inr (Or.inr (Or.inr (Or.inr (Or.inr (Or.inl
      ⟨rfl, by simp [daysBeforeMonth], by simp [daysInMonthOf]⟩)))))
  · exact Or.inr (Or.inr (Or.inr (Or.inr (Or.inr (Or.inr (Or.inl
      ⟨rfl, by simp [daysBeforeMonth], by simp [daysInMonthOf]⟩))))))
  · exact Or.inr (Or.inr (Or.inr (Or.inr (Or.inr (Or.inr (Or.inr (Or.inl
      ⟨rfl, by simp [daysBeforeMonth], by simp [daysInMonthOf]⟩)))))))
  · exact Or.inr (Or.inr (Or.inr (Or.inr (Or.inr (Or.inr (Or.inr (Or.inr (Or.inl
      ⟨rfl, by simp [daysBeforeMonth], by simp [daysInMonthOf]⟩))))))))
  · exact Or.inr (Or.inr (Or.inr (Or.inr (Or.inr (Or.inr (Or.inr (Or.inr (Or.inr (Or.inl
      ⟨rfl, by simp [daysBeforeMonth], by simp [daysInMonthOf]⟩)))))))))
  · exact Or.inr (Or.inr (Or.inr (Or.inr (Or.inr (Or.inr (Or.inr (Or.inr (Or.inr (Or.inr (Or.inl
      ⟨rfl, by simp [daysBeforeMonth], by simp [daysInMonthOf]⟩))))))))))
  · exact Or.inr (Or.inr (Or.inr (Or.inr (Or.inr (Or.inr (Or.inr (Or.inr (Or.inr (Or.inr (Or.inr
      ⟨rfl, by simp [daysBeforeMonth], by simp [daysInMonthOf]⟩))))))))))

theorem civilDay_lower (y m d : Nat) (hm1 : 1 ≤ m) (hm2 : m ≤ 12) (hd1 : 1 ≤ d) :
    dayFromYear y ≤ civilDay y ((m : Int) - 1) d := by
  obtain ⟨b, n, hb, _, hcase⟩ := month_table y m hm1 hm2
  have hl := inLeapYear_cases y
  rw [civilDay_eq y m d hm1 hm2, hb]
  rcases hcase with h | h | h | h | h | h | h | h | h | h | h | h <;>
    rcases hl with g | g <;> omega

theorem civilDay_upper (y m d : Nat) (hm1 : 1 ≤ m) (hm2 : m ≤ 12)
    (hd2 : d ≤ daysInMonthOf y m) :
    civilDay y ((m : Int) - 1) d < dayFromYear ((y : Int) + 1) := by
  obtain ⟨b, n, hb, hn, hcase⟩ := month_table y m hm1 hm2
  have hd2' : (d : Int) ≤ n := by rw [← hn]; exact_mod_cast hd2
  have hl := inLeapYear_cases y
  rw [dayFromYear_succ, civilDay_eq y m d hm1 hm2, hb]
  rcases hcase with h | h | h | h | h | h | h | h | h | h | h | h <;>
    rcases hl with g | g <;> omega

theorem yearFromDay_civilDay (y m d : Nat) (hm1 : 1 ≤ m) (hm2 : m ≤ 12) (hd1 : 1 ≤ d)
    (hd2 : d ≤ daysInMonthOf y m) : yearFromDay (civilDay y ((m : Int) - 1) d) = y :=
  yearFromDay_unique _ _ (civilDay_lower y m d hm1 hm2 hd1) (civilDay_upper y m d hm1 hm2 hd2)

theorem month_chain (w l k : Int) (hl : l = 0 ∨ l = 1)
    (h : (k = 0 ∧ w < 31) ∨ (k = 1 ∧ 31 ≤ w ∧ w < 59 + l) ∨ (k = 2 ∧ 59 + l ≤ w ∧ w < 90 + l) ∨
      (k = 3 ∧ 90 + l ≤ w ∧ w < 120 + l) ∨ (k = 4 ∧ 120 + l ≤ w ∧ w < 151 + l) ∨
      (k = 5 ∧ 151 + l ≤ w ∧ w < 181 + l) ∨ (k = 6 ∧ 181 + l ≤ w ∧ w < 212 + l) ∨
      (k = 7 ∧ 212 + l ≤ w ∧ w < 243 + l) ∨ (k = 8 ∧ 243 + l ≤ w ∧ w < 273 + l) ∨
      (k = 9 ∧ 273 + l ≤ w ∧ w < 304 + l) ∨ (k = 10 ∧ 304 + l ≤ w ∧ w < 334 + l) ∨
      (k = 11 ∧ 334 + l ≤ w)) :
    (if w < 31 then (0 : Int)
      else if w < 59 + l then 1
      else if w < 90 + l then 2
      else if w < 120 + l then 3
      else if w < 151 + l then 4
      else if w < 181 + l then 5
      else if w < 212 + l then 6
      else if w < 243 + l then 7
      else if w < 273 + l then 8
      else if w < 304 + l then 9
      else if w < 334 + l then 10
      else 11) = k := by
  rcases h with h | h | h | h | h | h | h | h | h | h | h | h
  · have p : w < 31 := by omega
    rw [if_pos p]
    omega
  · have n0 : ¬ w < 31 := by omega
    have p : w < 59 + l := by omega
    rw [if_neg n0, if_pos p]
    omega
  · have n0 : ¬ w < 31 := by omega
    have n1 : ¬ w < 59 + l := by omega
    have p : w < 90 + l := by omega
    rw [if_neg n0, if_neg n1, if_pos p]
    omega
  · have n0 : ¬ w < 31 := by omega
    have n1 : ¬ w < 59 + l := by omega
    have n2 : ¬ w < 90 + l := by omega
    have p : w < 120 + l := by omega
    rw [if_neg n0, if_neg n1, if_neg n2, if_pos p]
    omega
  · have n0 : ¬ w < 31 := by omega
    have n1 : ¬ w < 59 + l := by omega
    have n2 : ¬ w < 90 + l := by omega
    have n3 : ¬ w < 120 + l := by omega
    have p : w < 151 + l := by omega
    rw [if_neg n0, if_neg n1, if_neg n2, if_neg n3, if_pos p]
    omega
  · have n0 : ¬ w < 31 := by omega
    have n1 : ¬ w < 59 + l := by omega
    have n2 : ¬ w < 90 + l := by omega
    have n3 : ¬ w < 120 + l := by omega
    have n4 : ¬ w < 151 + l := by omega
    have p : w < 181 + l := by omega
    rw [if_neg n0, if_neg n1, if_neg n2, if_neg n3, if_neg n4, if_pos p]
    omega
  · have n0 : ¬ w < 31 := by omega
    have n1 : ¬ w < 59 + l := by omega
    have n2 : ¬ w < 90 + l := by omega
    have n3 : ¬ w < 120 + l := by omega
    have n4 : ¬ w < 151 + l := by omega
    have n5 : ¬ w < 181 + l := by omega
    have p : w < 212 + l := by omega
    rw [if_neg n0, if_neg n1, if_neg n2, if_neg n3, if_neg n4, if_neg n5, if_pos p]
    omega
  · have n0 : ¬ w < 31 := by omega
    have n1 : ¬ w < 59 + l := by omega
    have n2 : ¬ w < 90 + l := by omega
    have n3 : ¬ w < 120 + l := by omega
    have n4 : ¬ w < 151 + l := by omega
    have n5 : ¬ w < 181 + l := by omega
    have n6 : ¬ w < 212 + l := by omega
    have p : w < 243 + l := by omega
    rw [if_neg n0, if_neg n1, if_neg n2, if_neg n3, if_neg n4, if_neg n5, if_neg n6, if_pos p]
    omega
  · have n0 : ¬ w < 31 := by omega
    have n1 : ¬ w < 59 + l := by omega
    have n2 : ¬ w < 90 + l := by omega
    have n3 : ¬ w < 120 + l := by omega
    have n4 : ¬ w < 151 + l := by omega
    have n5 : ¬ w < 181 + l := by omega
    have n6 : ¬ w < 212 + l := by omega
    have n7 : ¬ w < 243 + l := by omega
    have p : w < 273 + l := by omega
    rw [if_neg n0, if_neg n1, if_neg n2, if_neg n3, if_neg n4, if_neg n5, if_neg n6, if_neg n7, if_pos p]
    omega
  · have n0 : ¬ w < 31 := by omega
    have n1 : ¬ w < 59 + l := by omega
    have n2 : ¬ w < 90 + l := by omega
    have n3 : ¬ w < 120 + l := by omega
    have n4 : ¬ w < 151 + l := by omega
    have n5 : ¬ w < 181 + l := by omega
    have n6 : ¬ w < 212 + l := by omega
    have n7 : ¬ w < 243 + l := by omega
    have n8 : ¬ w < 273 + l := by omega
    have p : w < 304 + l := by omega
    rw [if_neg n0, if_neg n1, if_neg n2, if_neg n3, if_neg n4, if_neg n5, if_neg n6, if_neg n7, if_neg n8, if_pos p]
    omega
  · have n0 : ¬ w < 31 := by omega
    have n1 : ¬ w < 59 + l := by omega
    have n2 : ¬ w < 90 + l := by omega
    have n3 : ¬ w < 120 + l := by omega
    have n4 : ¬ w < 151 + l := by omega
    have n5 : ¬ w < 181 + l := by omega
    have n6 : ¬ w < 212 + l := by omega
    have n7 : ¬ w < 243 + l := by omega
    have n8 : ¬ w < 273 + l := by omega
    have n9 : ¬ w < 304 + l := by omega
    have p : w < 334 + l := by omega
    rw [if_neg n0, if_neg n1, if_neg n2, if_neg n3, if_neg n4, if_neg n5, if_neg n6, if_neg n7, if_neg n8, if_neg n9, if_pos p]
    omega
  · have n0 : ¬ w < 31 := by omega
    have n1 : ¬ w < 59 + l := by omega
    have n2 : ¬ w < 90 + l := by omega
    have n3 : ¬ w < 120 + l := by omega
    have n4 : ¬ w < 151 + l := by omega
    have n5 : ¬ w < 181 + l := by omega
    have n6 : ¬ w < 212 + l := by omega
    have n7 : ¬ w < 243 + l := by omega
    have n8 : ¬ w < 273 + l := by omega
    have n9 : ¬ w < 304 + l := by omega
    have n10 : ¬ w < 334 + l := by omega
    rw [if_neg n0, if_neg n1, if_neg n2, if_neg n3, if_neg n4, if_neg n5, if_neg n6, if_neg n7, if_neg n8, if_neg n9, if_neg n10]
    omega

theorem monthFromDay_civilDay (y m d : Nat) (hm1 : 1 ≤ m) (hm2 : m ≤ 12) (hd1 : 1 ≤ d)
    (hd2 : d ≤ daysInMonthOf y m) : monthFromDay (civilDay y ((m : Int) - 1) d) = (m : Int) - 1 := by
  obtain ⟨b, n, hb, hn, hcase⟩ := month_table y m hm1 hm2
  have hd2' : (d : Int) ≤ n := by rw [← hn]; exact_mod_cast hd2
  have hl : inLeapYear y = 0 ∨ inLeapYear y = 1 := by
    rcases inLeapYear_cases y with g | g <;> omega
  unfold monthFromDay
  simp only [yearFromDay_civilDay y m d hm1 hm2 hd1 hd2]
  apply month_chain _ _ _ hl
  rw [civilDay_eq y m d hm1 hm2, hb]
  rcases hcase with h | h | h | h | h | h | h | h | h | h | h | h
  · exact Or.inl (by omega)
  · exact Or.inr (Or.inl (by omega))
  · exact Or.inr (Or.inr (Or.inl (by omega)))
  · exact Or.inr (Or.inr (Or.inr (Or.inl (by omega))))
  · exact Or.inr (Or.inr (Or.inr (Or.inr (Or.inl (by omega)))))
  · exact Or.inr (Or.inr (Or.inr (Or.inr (Or.inr (Or.inl (by omega))))))
  · exact Or.inr (Or.inr (Or.inr (Or.inr (Or.inr (Or.inr (Or.inl (by omega)))))))
  · exact Or.inr (Or.inr (Or.inr (Or.inr (Or.inr (Or.inr (Or.inr (Or.inl (by omega))))))))
  · exact Or.inr (Or.inr (Or.inr (Or.inr (Or.inr (Or.inr (Or.inr (Or.inr (Or.inl
      (by omega)))))))))
  · exact Or.inr (Or.inr (Or.inr (Or.inr (Or.inr (Or.inr (Or.inr (Or.inr (Or.inr (Or.inl
      (by omega))))))))))
  · exact Or.inr (Or.inr (Or.inr (Or.inr (Or.inr (Or.inr (Or.inr (Or.inr (Or.inr (Or.inr (Or.inl
      (by omega)))))))))))
  · exact Or.inr (Or.inr (Or.inr (Or.inr (Or.inr (Or.inr (Or.inr (Or.inr (Or.inr (Or.inr (Or.inr
      (by omega)))))))))))

/-! ## `parseISO` on valid dates -/

theorem validISODate_fields (k : String) (h : validISODate k = true) :
    ∃ y m d, isoKeyFields k = some (y, m, d) ∧ keyYear k = y ∧ keyMonth k = m ∧
      1 ≤ m ∧ m ≤ 12 ∧ 1 ≤ d ∧ d ≤ daysInMonthOf y m := by
  unfold validISODate at h
  cases hk : isoKeyFields k with
  | none => simp [hk] at h
  | some t =>
    obtain ⟨y, m, d⟩ := t
    simp only [hk, decide_eq_true_eq] at h
    exact ⟨y, m, d, rfl, by simp [keyYear, hk], by simp [keyMonth, hk], h⟩

/-- In a zone that keeps the local day `day`, the date built at the local midnight of `day` has
the year and the month of `day`. -/
theorem zoneKeepsDay_spec (tz : TimeZone) (day : Int) (hz : zoneKeepsDay tz day = true) :
    getFullYear tz (timeClip (tz.utcOf (day * msPerDay))) = some (yearFromDay day) ∧
      getMonth tz (timeClip (tz.utcOf (day * msPerDay))) = some (monthFromDay day) := by
  unfold zoneKeepsDay at hz
  cases ht : timeClip (tz.utcOf (day * msPerDay)) with
  | none => simp [ht] at hz
  | some t =>
    simp only [ht, decide_eq_true_eq] at hz
    simp only [getFullYear, getMonth, Option.map_some', hz, and_self]

theorem keyDay_eq (k : String) (y m d : Nat) (h : isoKeyFields k = some (y, m, d)) :
    keyDay k = civilDay y ((m : Int) - 1) d := by
  simp [keyDay, h]

/-- On a key that is a valid date YYYY-MM-DD with a year from 100 on, in a zone that keeps the
day of the key, `parseISO` gives a valid `Date` whose year and month are the ones written in the
key. -/
theorem parseISO_valid (tz : TimeZone) (k : String) (hv : validISODate k = true)
    (hy : 100 ≤ keyYear k) (hz : zoneKeepsDay tz (keyDay k) = true) :
    getFullYear tz (parseISO tz k) = some (keyYear k : Int) ∧
      getMonth tz (parseISO tz k) = some ((keyMonth k : Int) - 1) := by
  obtain ⟨y, m, d, hk, hky, hkm, hm1, hm2, hd1, hd2⟩ := validISODate_fields k hv
  rw [hky] at hy ⊢
  rw [hkm]
  have hy99 : ¬ y ≤ 99 := by omega
  rw [parseISO_isoKey tz k y m d hk]
  simp only [hy99, if_false]
  rw [keyDay_eq k y m d hk] at hz
  obtain ⟨h1, h2⟩ := zoneKeepsDay_spec tz _ hz
  rw [h1, h2, yearFromDay_civilDay y m d hm1 hm2 hd1 hd2,
    monthFromDay_civilDay y m d hm1 hm2 hd1 hd2]
  exact ⟨rfl, rfl⟩

/-! ## C2: `monthTotals` on valid keys -/

theorem monthStep_valid (tz : TimeZone) (y m : Int) (c : Counters) (kv : String × Day)
    (hv : validISODate kv.1 = true) (hy : 100 ≤ keyYear kv.1)
    (hz : zoneKeepsDay tz (keyDay kv.1) = true) :
    monthStep tz (some y) (some m) c kv =
      if keyInMonth y m kv = true then
        { pushSets := jsAdd c.pushSets (kv.2.pushSets.orElse 0)
          hangCount := c.hangCount + (kv.2.hangs.orElse []).length
          offDays := if kv.2.off.truthy then c.offDays + 1 else c.offDays }
      else c := by
  obtain ⟨h1, h2⟩ := parseISO_valid tz kv.1 hv hy hz
  have hc : (numStrictEq (getFullYear tz (parseISO tz kv.1)) (some y) &&
      numStrictEq (getMonth tz (parseISO tz kv.1)) (some m)) = keyInMonth y m kv := by
    rw [h1, h2]
    simp only [numStrictEq, keyInMonth]
    rw [Bool.eq_iff_iff]
    simp only [Bool.and_eq_true, decide_eq_true_eq]
    constructor
    · rintro ⟨a, b⟩
      exact ⟨a, by omega⟩
    · rintro ⟨a, b⟩
      exact ⟨a, by omega⟩
  simp only [monthStep, hc]

theorem foldl_monthStep_valid (tz : TimeZone) (y m : Int) (l : List (String × Day))
    (x : Int) (n o : Nat)
    (h : ∀ kv ∈ l, validISODate kv.1 = true ∧ 100 ≤ keyYear kv.1 ∧
      zoneKeepsDay tz (keyDay kv.1) = true)
    (hb : x.natAbs + pushSetsBound (l.filter (keyInMonth y m)) ≤ 2 ^ 53) :
    l.foldl (monthStep tz (some y) (some m)) { pushSets := .fin x, hangCount := n, offDays := o } =
      { pushSets := .fin (x
          + ((l.filter (keyInMonth y m)).map fun kv => kv.2.pushSets.orElse 0).sum)
        hangCount := n
          + ((l.filter (keyInMonth y m)).map fun kv => (kv.2.hangs.orElse []).length).sum
        offDays := o + (l.filter (keyInMonth y m)).countP fun kv => kv.2.off.truthy } := by
  induction l generalizing x n o with
  | nil => simp
  | cons kv rest ih =>
    have hkv := h kv (List.mem_cons_self _ _)
    rw [List.foldl_cons, monthStep_valid tz y m _ kv hkv.1 hkv.2.1 hkv.2.2]
    by_cases hin : keyInMonth y m kv = true
    · have hb' : x.natAbs + ((kv.2.pushSets.orElse 0).natAbs
          + pushSetsBound (rest.filter (keyInMonth y m))) ≤ 2 ^ 53 := by
        simpa [pushSetsBound, List.filter_cons, hin] using hb
      have hle := Int.natAbs_add_le x (kv.2.pushSets.orElse 0)
      have hadd : jsAdd (.fin x) (kv.2.pushSets.orElse 0)
          = .fin (x + kv.2.pushSets.orElse 0) := by
        simp only [jsAdd]
        apply roundNum_of_le
        omega
      rw [if_pos hin]
      simp only [hadd]
      rw [ih _ _ _ (fun x hx => h x (List.mem_cons_of_mem _ hx)) (by omega)]
      by_cases hoff : kv.2.off.truthy = true
      · simp [hin, hoff, List.filter_cons, add_assoc, add_comm 1]
      · simp [hin, hoff, List.filter_cons, add_assoc]
    · have hb' : x.natAbs + pushSetsBound (rest.filter (keyInMonth y m)) ≤ 2 ^ 53 := by
        simpa [List.filter_cons, hin] using hb
      rw [if_neg hin, ih _ _ _ (fun x hx => h x (List.mem_cons_of_mem _ hx)) hb']
      simp [hin, List.filter_cons]

theorem natAbs_sum_le (l : List (String × Day)) :
    ((l.map fun (kv : String × Day) => kv.2.pushSets.orElse 0).sum).natAbs
      ≤ pushSetsBound l := by
  induction l with
  | nil => simp [pushSetsBound]
  | cons kv rest ih =>
    have hb : pushSetsBound (kv :: rest)
        = (kv.2.pushSets.orElse 0).natAbs + pushSetsBound rest := by
      simp [pushSetsBound]
    rw [hb]
    simp only [List.map_cons, List.sum_cons]
    have := Int.natAbs_add_le (kv.2.pushSets.orElse 0)
      ((List.map (fun kv => kv.2.pushSets.orElse 0) rest).sum)
    omega

theorem parseISO_0050 (tz : TimeZone) :
    parseISO tz "0050-02-01" = timeClip (tz.utcOf (civilDay 1950 1 1 * msPerDay)) :=
  parseISO_isoKey tz "0050-02-01" 50 2 1 (by decide)

theorem parseISO_19941231 (tz : TimeZone) :
    parseISO tz "1994-12-31" = timeClip (tz.utcOf (civilDay 1994 11 31 * msPerDay)) :=
  parseISO_isoKey tz "1994-12-31" 1994 12 31 (by decide)

theorem parseISO_20260201 (tz : TimeZone) :
    parseISO tz "2026-02-01" = timeClip (tz.utcOf (civilDay 2026 1 1 * msPerDay)) :=
  parseISO_isoKey tz "2026-02-01" 2026 2 1 (by decide)

theorem parseISO_20260210 (tz : TimeZone) :
    parseISO tz "2026-02-10" = timeClip (tz.utcOf (civilDay 2026 1 10 * msPerDay)) :=
  parseISO_isoKey tz "2026-02-10" 2026 2 10 (by decide)

/-- C2 as stated fails, in three ways.  The key 0050-02-01 is a valid date YYYY-MM-DD of the
year 50, yet its record is counted in the totals of February 1950: the `Date` constructor reads
a year from 0 to 99 as 1900 plus that year.  In a zone whose clocks skipped the day 1994-12-31,
the record under the key 1994-12-31 is counted in the totals of January 1995.  And with 2^53 sets
on one day of February 2026 and one set on another, `reps` is 10 times 2^53, not 10 times the
sum: the sum is rounded to the nearest double. -/
theorem monthTotals_not_as_claimed :
    ((∀ kv ∈ year50Store.days, validISODate kv.1 = true) ∧
      getFullYear utcZone feb1950 = some 1950 ∧ getMonth utcZone feb1950 = some 1 ∧
      totalsByKey year50Store.days 1950 1 = { reps := 0, hangs := 0, offDays := 0 } ∧
      monthTotals utcZone year50Store feb1950 = { reps := 30, hangs := 0, offDays := 0 }) ∧
    ((∀ kv ∈ skippedDayStore.days, validISODate kv.1 = true) ∧
      getFullYear lineIslandsZone jan1995 = some 1995 ∧
      getMonth lineIslandsZone jan1995 = some 0 ∧
      totalsByKey skippedDayStore.days 1995 0 = { reps := 0, hangs := 0, offDays := 0 } ∧
      monthTotals lineIslandsZone skippedDayStore jan1995
        = { reps := 10, hangs := 0, offDays := 0 }) ∧
    ((∀ kv ∈ bigStore.days, validISODate kv.1 = true) ∧
      totalsByKey bigStore.days 2026 1
        = { reps := 90071992547409930, hangs := 0, offDays := 0 } ∧
      monthTotals utcZone bigStore feb2026
        = { reps := 90071992547409920, hangs := 0, offDays := 0 }) := by
  refine ⟨⟨by decide, by decide, by decide, by decide, ?_⟩,
    ⟨by decide, by decide, by decide, by decide, ?_⟩, ⟨by decide, by decide, ?_⟩⟩
  · simp only [monthTotals, year50Store, List.foldl_cons, List.foldl_nil, monthStep,
      parseISO_0050]
    decide
  · simp only [monthTotals, skippedDayStore, List.foldl_cons, List.foldl_nil, monthStep,
      parseISO_19941231]
    decide
  · simp only [monthTotals, bigStore, List.foldl_cons, List.foldl_nil, monthStep,
      parseISO_20260201, parseISO_20260210]
    decide

/-- C2, amended.  Take a store whose keys are valid dates YYYY-MM-DD with a year from 0100 on,
in a time zone that keeps the day of every key (the local midnight that starts it exists and
belongs to it), and a target date (year `y`, month `m` counted from 0 as `getMonth` does) such
that the `pushSets` of the records whose key lies in that year and month, added up in absolute
value and multiplied by 10, stay within 2^53.  Then `monthTotals` returns `reps` = 10 times the
sum of `pushSets` over the records whose key lies in that year and month, `hangs` = the sum of
the lengths of their `hangs` lists, and `offDays` = the number of those records marked off.
Records of other months contribute nothing, a missing (or `null`) `pushSets` or `hangs` counts
as 0, and the push-ups and hangs of a record marked off are counted. -/
theorem monthTotals_spec (tz : TimeZone) (data : Store) (viewDate : JSDate) (y m : Int)
    (hy : getFullYear tz viewDate = some y) (hm : getMonth tz viewDate = some m)
    (hkeys : ∀ kv ∈ data.days, validISODate kv.1 = true ∧ 100 ≤ keyYear kv.1 ∧
      zoneKeepsDay tz (keyDay kv.1) = true)
    (hsum : 10 * pushSetsBound (data.days.filter (keyInMonth y m)) ≤ 2 ^ 53) :
    monthTotals tz data viewDate = totalsByKey data.days y m := by
  have hb : (0 : Int).natAbs + pushSetsBound (data.days.filter (keyInMonth y m)) ≤ 2 ^ 53 := by
    simp only [Int.natAbs_zero]
    omega
  have hle := natAbs_sum_le (data.days.filter (keyInMonth y m))
  have hmul : jsTimes10 (.fin (0 + ((data.days.filter (keyInMonth y m)).map
      fun kv => kv.2.pushSets.orElse 0).sum))
      = .fin (10 * ((data.days.filter (keyInMonth y m)).map
          fun kv => kv.2.pushSets.orElse 0).sum) := by
    simp only [jsTimes10]
    rw [roundNum_of_le]
    · congr 1
      ring
    · rw [Int.natAbs_mul, zero_add]
      have : (10 : Int).natAbs = 10 := rfl
      rw [this]
      omega
  have hf := foldl_monthStep_valid tz y m data.days 0 0 0 hkeys hb
  have h0 : ({ pushSets := 0, hangCount := 0, offDays := 0 } : Counters)
      = { pushSets := .fin 0, hangCount := 0, offDays := 0 } := rfl
  simp only [monthTotals, hy, hm, h0, hf, totalsByKey, hmul]
  simp

/-- Witness of `monthTotals_spec`, the example of the specification in the zone of UTC: records
2026-02-01 (off), 2026-02-10 (two sets), 2026-03-01 (five sets) give 20 reps, 0 hangs, 1 off
day for February 2026. -/
theorem monthTotals_spec_witness :
    monthTotals utcZone exampleStore feb2026 = { reps := 20, hangs := 0, offDays := 1 } :=
  (monthTotals_spec utcZone exampleStore feb2026 2026 1 (by decide) (by decide) (by decide)
    (by decide)).trans (by decide)

/-! ## C9: keys that are not valid dates -/

theorem parseISO_day32 (tz : TimeZone) :
    parseISO tz "2026-01-32" = timeClip (tz.utcOf (civilDay 2026 0 32 * msPerDay)) :=
  parseISO_isoKey tz "2026-01-32" 2026 1 32 (by decide)

theorem parseISO_month14 (tz : TimeZone) :
    parseISO tz "2026-14-01" = timeClip (tz.utcOf (civilDay 2026 13 1 * msPerDay)) :=
  parseISO_isoKey tz "2026-14-01" 2026 14 1 (by decide)

/-- C9 as stated fails.  The keys 2026-01-32 and 2026-14-01 are not valid dates, yet their
records are not skipped: the first is counted in the totals of February 2026 and the second in
those of February 2027 (here in the zone of UTC). -/
theorem monthTotals_invalid_key_counted :
    validISODate "2026-01-32" = false ∧ validISODate "2026-14-01" = false ∧
      monthTotals utcZone day32Store feb2026 = { reps := 10, hangs := 0, offDays := 0 } ∧
      monthTotals utcZone month14Store feb2027 = { reps := 10, hangs := 0, offDays := 0 } := by
  refine ⟨by decide, by decide, ?_, ?_⟩
  · simp only [monthTotals, day32Store, List.foldl_cons, List.foldl_nil, monthStep,
      parseISO_day32]
    decide
  · simp only [monthTotals, month14Store, List.foldl_cons, List.foldl_nil, monthStep,
      parseISO_month14]
    decide

theorem newDate_none_of_none (tz : TimeZone) (y m d : Option ℚ)
    (h : y = none ∨ m = none ∨ d = none) : newDate tz y m d = none := by
  rcases h with h | h | h <;> subst h
  · rfl
  · cases y <;> rfl
  · cases y <;> cases m <;> rfl

/-- A key with fewer than three parts, or with a part among the first three that `Number`
does not read as a finite number, gives an Invalid Date. -/
theorem parseISO_eq_none (tz : TimeZone) (k : String)
    (h : (splitDash k.data).length < 3 ∨
      ∃ i p, i < 3 ∧ (splitDash k.data).get? i = some p ∧ strToNumber p = none) :
    parseISO tz k = none := by
  unfold parseISO
  simp only
  apply newDate_none_of_none
  rcases h with h | ⟨i, p, hi, hp, hn⟩
  · right
    right
    have : ((splitDash k.data).map strToNumber).get? 2 = none := by
      rw [List.get?_eq_none]
      simp only [List.length_map]
      omega
    rw [this]
    rfl
  · have hget : ((splitDash k.data).map strToNumber).get? i = some none := by
      simp only [List.get?_eq_getElem?] at hp ⊢
      rw [List.getElem?_map, hp]
      simp [hn]
    have hi3 : i = 0 ∨ i = 1 ∨ i = 2 := by omega
    rcases hi3 with rfl | rfl | rfl
    · left
      rw [hget]
      rfl
    · right
      left
      rw [hget]
      rfl
    · right
      right
      rw [hget]
      rfl

theorem monthStep_of_parse_none (tz : TimeZone) (y m : Option Int) (c : Counters)
    (kv : String × Day) (h : parseISO tz kv.1 = none) : monthStep tz y m c kv = c := by
  simp [monthStep, h, getFullYear, numStrictEq]

/-- C9, amended.  `monthTotals` is total (it never raises).  A record whose key has fewer than
three parts between "-", or has among its first three parts one that `Number` does not read
as a finite number (non-numeric text), is skipped: whatever the store, the time zone and the
target month, the totals are those of the store without that record.  A key whose three parts
are numbers is not checked against the calendar: a month or day out of range is carried over by
the `Date` constructor, so 2026-01-32 counts for February 2026 and 2026-14-01 for February 2027
(in every zone that keeps the days 2026-02-01 and 2027-02-01, the zone of UTC among them). -/
theorem monthTotals_skips_unparsed_key (tz : TimeZone) (k : String) (v : Day)
    (before after : List (String × Day)) (extra : List (String × JVal)) (viewDate : JSDate)
    (h : (splitDash k.data).length < 3 ∨
      ∃ i p, i < 3 ∧ (splitDash k.data).get? i = some p ∧ strToNumber p = none) :
    monthTotals tz { days := before ++ (k, v) :: after, extra := extra } viewDate
        = monthTotals tz { days := before ++ after, extra := extra } viewDate ∧
      (zoneKeepsDay tz (civilDay 2026 1 1) = true →
        getFullYear tz (parseISO tz "2026-01-32") = some 2026 ∧
        getMonth tz (parseISO tz "2026-01-32") = some 1) ∧
      (zoneKeepsDay tz (civilDay 2027 1 1) = true →
        getFullYear tz (parseISO tz "2026-14-01") = some 2027 ∧
        getMonth tz (parseISO tz "2026-14-01") = some 1) ∧
      (getFullYear utcZone (parseISO utcZone "2026-01-32") = some 2026 ∧
        getMonth utcZone (parseISO utcZone "2026-01-32") = some 1) ∧
      (getFullYear utcZone (parseISO utcZone "2026-14-01") = some 2027 ∧
        getMonth utcZone (parseISO utcZone "2026-14-01") = some 1) := by
  have e1 : civilDay 2026 0 32 = civilDay 2026 1 1 := by decide
  have e2 : civilDay 2026 13 1 = civilDay 2027 1 1 := by decide
  have y1 : yearFromDay (civilDay 2026 1 1) = 2026 := by decide
  have m1 : monthFromDay (civilDay 2026 1 1) = 1 := by decide
  have y2 : yearFromDay (civilDay 2027 1 1) = 2027 := by decide
  have m2 : monthFromDay (civilDay 2027 1 1) = 1 := by decide
  have z1 : ∀ z : TimeZone, zoneKeepsDay z (civilDay 2026 1 1) = true →
      getFullYear z (parseISO z "2026-01-32") = some 2026 ∧
      getMonth z (parseISO z "2026-01-32") = some 1 := by
    intro z hz
    have hs := zoneKeepsDay_spec z _ hz
    rw [parseISO_day32, e1, hs.1, hs.2, y1, m1]
    exact ⟨rfl, rfl⟩
  have z2 : ∀ z : TimeZone, zoneKeepsDay z (civilDay 2027 1 1) = true →
      getFullYear z (parseISO z "2026-14-01") = some 2027 ∧
      getMonth z (parseISO z "2026-14-01") = some 1 := by
    intro z hz
    have hs := zoneKeepsDay_spec z _ hz
    rw [parseISO_month14, e2, hs.1, hs.2, y2, m2]
    exact ⟨rfl, rfl⟩
  refine ⟨?_, z1 tz, z2 tz, z1 utcZone (by decide), z2 utcZone (by decide)⟩
  have hp := parseISO_eq_none tz k h
  simp only [monthTotals, List.foldl_append, List.foldl_cons,
    monthStep_of_parse_none _ _ _ _ (k, v) hp]

/-- Witness of `monthTotals_skips_unparsed_key`: in `oddKeysStore` the record under the key
`2026-02`, which has no day part, is skipped for February 2026; and in the zone of UTC, which
keeps the day 2026-02-01, the key 2026-01-32 is read as a date of February 2026. -/
theorem monthTotals_skips_unparsed_key_witness :
    monthTotals utcZone oddKeysStore feb2026
        = monthTotals utcZone
            { days := [("soon", { off := .val false, pushSets := .val 1, hangs := .val [],
                                  notes := .val "", extra := [] })],
              extra := [] } feb2026 ∧
      zoneKeepsDay utcZone (civilDay 2026 1 1) = true ∧
      getFullYear utcZone (parseISO utcZone "2026-01-32") = some 2026 ∧
      getMonth utcZone (parseISO utcZone "2026-01-32") = some 1 :=
  have h := monthTotals_skips_unparsed_key utcZone "2026-02"
    { off := .val true, pushSets := .val 4, hangs := .val [], notes := .val "", extra := [] }
    [] [("soon", { off := .val false, pushSets := .val 1, hangs := .val [], notes := .val "",
                   extra := [] })] [] feb2026 (Or.inl (by decide))
  ⟨h.1, by decide, (h.2.1 (by decide)).1, (h.2.1 (by decide)).2⟩

end Pushups
